import Mathlib

/-!
Verification development for the hamilton-tool repository.

The TypeScript sources are shallowly embedded over an arbitrary linear ordered
field `α` (instantiated at `ℚ` for executable checks and at `ℝ` for the
concrete sine-wave scenario).  Conventions used throughout:

* JavaScript numbers are modelled as elements of `α`; exact (real) arithmetic
  is assumed, as the specification describes the algorithms in terms of real
  numbers.
* Array cells that the source fills with `NaN` (indicator warm-up prefixes)
  are modelled as `Option α`, `none` standing for `NaN`/`undefined`; the
  NaN-propagation of JavaScript arithmetic and the falsity of every comparison
  with `NaN` are modelled by the `o*` helper functions below.
* JavaScript's `Infinity` sentinel for `profitFactor` / `overfitRatio` /
  the `-Infinity` grid-search seed is modelled as the `none` of an `Option`.
* Dates are opaque and modelled as `ℕ`.
-/

set_option linter.unreachableTactic false
set_option linter.unusedTactic false
set_option maxRecDepth 8000

namespace HamiltonTool

/-- JavaScript NaN-propagating arithmetic: `none` models `NaN`. -/
def oadd {α : Type} [Add α] : Option α → Option α → Option α
  | some a, some b => some (a + b)
  | _, _ => none

/-- Subtraction with NaN propagation. -/
def osub {α : Type} [Sub α] : Option α → Option α → Option α
  | some a, some b => some (a - b)
  | _, _ => none

/-- Multiplication with NaN propagation. -/
def omul {α : Type} [Mul α] : Option α → Option α → Option α
  | some a, some b => some (a * b)
  | _, _ => none

/-- Division with NaN propagation (division by zero follows the exact-field
convention; every use site in the sources is guarded against a zero
denominator). -/
def odiv {α : Type} [Div α] : Option α → Option α → Option α
  | some a, some b => some (a / b)
  | _, _ => none

/-- JavaScript `<` on possibly-NaN values: any comparison with NaN is false. -/
def olt {α : Type} [LinearOrder α] : Option α → Option α → Bool
  | some a, some b => decide (a < b)
  | _, _ => false

/-- JavaScript `<=` on possibly-NaN values: any comparison with NaN is false. -/
def ole {α : Type} [LinearOrder α] : Option α → Option α → Bool
  | some a, some b => decide (a ≤ b)
  | _, _ => false

/-- JavaScript `Math.max` of two possibly-NaN values (NaN absorbs). -/
def omax {α : Type} [LinearOrder α] : Option α → Option α → Option α
  | some a, some b => some (max a b)
  | _, _ => none

/-- JavaScript `Math.min` of two possibly-NaN values (NaN absorbs). -/
def omin {α : Type} [LinearOrder α] : Option α → Option α → Option α
  | some a, some b => some (min a b)
  | _, _ => none

/-- The transcendental operations of `Math` that the sources use.  They are
kept abstract: every theorem below holds for an arbitrary interpretation. -/
structure JsMath (α : Type) where
  pow : α → α → α
  sqrt : α → α
  log10 : α → α

/-- A trivial interpretation of the abstract `Math` operations, used to
instantiate theorems whose statements do not depend on them. -/
def jsMathZero (α : Type) [Zero α] : JsMath α :=
  { pow := fun _ _ => 0, sqrt := fun _ => 0, log10 := fun _ => 0 }

/-! Data model (`types.ts`).  `open` is a Lean keyword, so the open price
field is named `openPrice`. -/

/-- `OHLCVData` from `types.ts`. -/
structure OHLCVData (α : Type) where
  date : ℕ
  openPrice : α
  high : α
  low : α
  close : α
  volume : α
  deriving DecidableEq

/-- `MarketData` from `types.ts`: an OHLCV bar extended with demand/supply. -/
structure MarketData (α : Type) where
  date : ℕ
  openPrice : α
  high : α
  low : α
  close : α
  volume : α
  demand : α
  supply : α
  deriving DecidableEq

instance {α : Type} [Zero α] : Inhabited (MarketData α) :=
  ⟨⟨0, 0, 0, 0, 0, 0, 0, 0⟩⟩

/-- `DiagramPosition` from `types.ts`. -/
inductive DiagramPosition : Type
  | FREE_RISE
  | WEAK_BULL
  | BEAR_RALLY
  | CONSOLIDATION
  | CHAOS
  | DISTRIBUTION
  | BULL_TRAP
  | WEAK_BEAR
  | FREE_FALL
  deriving DecidableEq, Fintype

/-- The `action` union type of `TradingSignal` from `types.ts`. -/
inductive TradeAction : Type
  | LONG
  | SHORT
  | WAIT
  | HOLD_LONG
  | HOLD_SHORT
  | EXIT_LONG
  | EXIT_SHORT
  | ACCUMULATE
  | REDUCE
  deriving DecidableEq

/-- The `quality` union type of `TradingSignal` from `types.ts`. -/
inductive SignalQuality : Type
  | Healthy
  | Speculative
  | Warning
  deriving DecidableEq

/-- `TradingSignal` from `types.ts`. -/
structure TradingSignal (α : Type) where
  position : DiagramPosition
  action : TradeAction
  demand : α
  supply : α
  quality : SignalQuality
  deriving DecidableEq

/-! `diagramLogic.ts`. -/

/-- `DEFAULT_THRESHOLD` from `diagramLogic.ts`. -/
def defaultThreshold {α : Type} [OfNat α 30] : α := 30

/-- `getThresholds` from `diagramLogic.ts`: `customThreshold ?? DEFAULT_THRESHOLD`,
returned as the pair (STRONG_THRESHOLD, WEAK_THRESHOLD). -/
def getThresholds {α : Type} [Neg α] [OfNat α 30] (customThreshold : Option α) : α × α :=
  let threshold := customThreshold.getD defaultThreshold
  (threshold, -threshold)

/-- `mapToPosition` from `diagramLogic.ts`: the 3×3 demand/supply grid, with the
defensive final `CHAOS` default.  The source's `demandStrong`/`demandNeutral`/
`demandWeak` (and supply) locals are inlined: strong is `> threshold`, neutral
is `≥ -threshold ∧ ≤ threshold`, weak is `< -threshold`, with
`threshold = customThreshold ?? DEFAULT_THRESHOLD`. -/
def mapToPosition {α : Type} [LinearOrderedField α]
    (demand supply : α) (customThreshold : Option α) : DiagramPosition :=
  if customThreshold.getD defaultThreshold < demand ∧
      supply < -customThreshold.getD defaultThreshold then
    DiagramPosition.FREE_RISE
  else if customThreshold.getD defaultThreshold < demand ∧
      (-customThreshold.getD defaultThreshold ≤ supply ∧
        supply ≤ customThreshold.getD defaultThreshold) then
    DiagramPosition.WEAK_BULL
  else if customThreshold.getD defaultThreshold < demand ∧
      customThreshold.getD defaultThreshold < supply then
    DiagramPosition.BEAR_RALLY
  else if (-customThreshold.getD defaultThreshold ≤ demand ∧
      demand ≤ customThreshold.getD defaultThreshold) ∧
      supply < -customThreshold.getD defaultThreshold then
    DiagramPosition.CONSOLIDATION
  else if (-customThreshold.getD defaultThreshold ≤ demand ∧
      demand ≤ customThreshold.getD defaultThreshold) ∧
      (-customThreshold.getD defaultThreshold ≤ supply ∧
        supply ≤ customThreshold.getD defaultThreshold) then
    DiagramPosition.CHAOS
  else if (-customThreshold.getD defaultThreshold ≤ demand ∧
      demand ≤ customThreshold.getD defaultThreshold) ∧
      customThreshold.getD defaultThreshold < supply then
    DiagramPosition.DISTRIBUTION
  else if demand < -customThreshold.getD defaultThreshold ∧
      supply < -customThreshold.getD defaultThreshold then
    DiagramPosition.BULL_TRAP
  else if demand < -customThreshold.getD defaultThreshold ∧
      (-customThreshold.getD defaultThreshold ≤ supply ∧
        supply ≤ customThreshold.getD defaultThreshold) then
    DiagramPosition.WEAK_BEAR
  else if demand < -customThreshold.getD defaultThreshold ∧
      customThreshold.getD defaultThreshold < supply then
    DiagramPosition.FREE_FALL
  else DiagramPosition.CHAOS

/-- `generateSignal` from `diagramLogic.ts`: the fixed zone→action table. -/
def generateSignal : DiagramPosition → TradeAction
  | DiagramPosition.FREE_RISE => TradeAction.LONG
  | DiagramPosition.WEAK_BULL => TradeAction.HOLD_LONG
  | DiagramPosition.BEAR_RALLY => TradeAction.EXIT_SHORT
  | DiagramPosition.CONSOLIDATION => TradeAction.ACCUMULATE
  | DiagramPosition.CHAOS => TradeAction.WAIT
  | DiagramPosition.DISTRIBUTION => TradeAction.REDUCE
  | DiagramPosition.BULL_TRAP => TradeAction.EXIT_LONG
  | DiagramPosition.WEAK_BEAR => TradeAction.HOLD_SHORT
  | DiagramPosition.FREE_FALL => TradeAction.SHORT

/-- `getQualityAssessment` from `diagramLogic.ts`. -/
def getQualityAssessment {α : Type} [LinearOrderedField α] (demand supply : α) :
    SignalQuality :=
  let demandAbs := |demand|
  let supplyAbs := |supply|
  let avgForce := (demandAbs + supplyAbs) / 2
  if 50 < avgForce ∧ 40 < |demand - supply| then SignalQuality.Healthy
  else if 60 < avgForce ∧ |demand - supply| < 20 then SignalQuality.Warning
  else if avgForce < 30 then SignalQuality.Speculative
  else SignalQuality.Speculative

/-- `createTradingSignal` from `diagramLogic.ts`. -/
def createTradingSignal {α : Type} [LinearOrderedField α]
    (demand supply : α) (customThreshold : Option α) : TradingSignal α :=
  let position := mapToPosition demand supply customThreshold
  let action := generateSignal position
  let quality := getQualityAssessment demand supply
  { position := position, action := action, demand := demand, supply := supply,
    quality := quality }

/-- The 9 zone rules of the specification, as a decidable predicate: rule `z`
fires on `(demand, supply)` at threshold `t`. -/
def zoneRuleB {α : Type} [LinearOrderedField α] (demand supply t : α) :
    DiagramPosition → Bool
  | DiagramPosition.FREE_RISE => decide (t < demand) && decide (supply < -t)
  | DiagramPosition.WEAK_BULL => decide (t < demand) && (decide (-t ≤ supply) && decide (supply ≤ t))
  | DiagramPosition.BEAR_RALLY => decide (t < demand) && decide (t < supply)
  | DiagramPosition.CONSOLIDATION => (decide (-t ≤ demand) && decide (demand ≤ t)) && decide (supply < -t)
  | DiagramPosition.CHAOS => (decide (-t ≤ demand) && decide (demand ≤ t)) && (decide (-t ≤ supply) && decide (supply ≤ t))
  | DiagramPosition.DISTRIBUTION => (decide (-t ≤ demand) && decide (demand ≤ t)) && decide (t < supply)
  | DiagramPosition.BULL_TRAP => decide (demand < -t) && decide (supply < -t)
  | DiagramPosition.WEAK_BEAR => decide (demand < -t) && (decide (-t ≤ supply) && decide (supply ≤ t))
  | DiagramPosition.FREE_FALL => decide (demand < -t) && decide (t < supply)

/-- C2: for every demand/supply pair and every positive threshold, exactly one
of the 9 zone rules fires, `mapToPosition` returns that zone's value, and in
particular the defensive default-CHAOS branch is never the reason a zone is
returned (the returned zone always satisfies its own rule). -/
theorem mapToPosition_zone_partition {α : Type} [LinearOrderedField α]
    (demand supply t : α) (ht : 0 < t) :
    zoneRuleB demand supply t (mapToPosition demand supply (some t)) = true ∧
      ∀ z : DiagramPosition, zoneRuleB demand supply t z = true →
        z = mapToPosition demand supply (some t) := by
  have hdem : demand < -t ∨ (-t ≤ demand ∧ demand ≤ t) ∨ t < demand := by
    rcases lt_or_le demand (-t) with h | h
    · exact Or.inl h
    · rcases le_or_lt demand t with h2 | h2
      · exact Or.inr (Or.inl ⟨h, h2⟩)
      · exact Or.inr (Or.inr h2)
  have hsup : supply < -t ∨ (-t ≤ supply ∧ supply ≤ t) ∨ t < supply := by
    rcases lt_or_le supply (-t) with h | h
    · exact Or.inl h
    · rcases le_or_lt supply t with h2 | h2
      · exact Or.inr (Or.inl ⟨h, h2⟩)
      · exact Or.inr (Or.inr h2)
  rcases hdem with hd1 | ⟨hd1, hd2⟩ | hd1 <;> rcases hsup with hs1 | ⟨hs1, hs2⟩ | hs1
  · -- demand weak, supply weak: BULL_TRAP
    have hmap : mapToPosition demand supply (some t) = DiagramPosition.BULL_TRAP := by
      simp only [mapToPosition, Option.getD_some]
      rw [if_neg (fun h => by linarith [h.1]), if_neg (fun h => by linarith [h.1]),
        if_neg (fun h => by linarith [h.1]), if_neg (fun h => by linarith [h.1.1]),
        if_neg (fun h => by linarith [h.1.1]), if_neg (fun h => by linarith [h.1.1]),
        if_pos ⟨hd1, hs1⟩]
    refine ⟨?_, ?_⟩
    · rw [hmap]
      simp only [zoneRuleB, Bool.and_eq_true, decide_eq_true_eq]
      exact ⟨hd1, hs1⟩
    · intro z hz
      rw [hmap]
      cases z <;> simp only [zoneRuleB, Bool.and_eq_true, decide_eq_true_eq] at hz <;>
        first
          | rfl
          | (exfalso; linarith [hz.1, hz.2])
          | (exfalso; linarith [hz.1, hz.2.1, hz.2.2])
  · -- demand weak, supply neutral: WEAK_BEAR
    have hmap : mapToPosition demand supply (some t) = DiagramPosition.WEAK_BEAR := by
      simp only [mapToPosition, Option.getD_some]
      rw [if_neg (fun h => by linarith [h.1]), if_neg (fun h => by linarith [h.1]),
        if_neg (fun h => by linarith [h.1]), if_neg (fun h => by linarith [h.1.1]),
        if_neg (fun h => by linarith [h.1.1]), if_neg (fun h => by linarith [h.1.1]),
        if_neg (fun h => by linarith [h.2]), if_pos ⟨hd1, hs1, hs2⟩]
    refine ⟨?_, ?_⟩
    · rw [hmap]
      simp only [zoneRuleB, Bool.and_eq_true, decide_eq_true_eq]
      exact ⟨hd1, hs1, hs2⟩
    · intro z hz
      rw [hmap]
      cases z <;> simp only [zoneRuleB, Bool.and_eq_true, decide_eq_true_eq] at hz <;>
        first
          | rfl
          | (exfalso; linarith [hz.1, hz.2])
          | (exfalso; linarith [hz.1, hz.2.1, hz.2.2])
  · -- demand weak, supply strong: FREE_FALL
    have hmap : mapToPosition demand supply (some t) = DiagramPosition.FREE_FALL := by
      simp only [mapToPosition, Option.getD_some]
      rw [if_neg (fun h => by linarith [h.1]), if_neg (fun h => by linarith [h.1]),
        if_neg (fun h => by linarith [h.1]), if_neg (fun h => by linarith [h.1.1]),
        if_neg (fun h => by linarith [h.1.1]), if_neg (fun h => by linarith [h.1.1]),
        if_neg (fun h => by linarith [h.2]), if_neg (fun h => by linarith [h.2.2]),
        if_pos ⟨hd1, hs1⟩]
    refine ⟨?_, ?_⟩
    · rw [hmap]
      simp only [zoneRuleB, Bool.and_eq_true, decide_eq_true_eq]
      exact ⟨hd1, hs1⟩
    · intro z hz
      rw [hmap]
      cases z <;> simp only [zoneRuleB, Bool.and_eq_true, decide_eq_true_eq] at hz <;>
        first
          | rfl
          | (exfalso; linarith [hz.1, hz.2])
          | (exfalso; linarith [hz.1, hz.2.1, hz.2.2])
  · -- demand neutral, supply weak: CONSOLIDATION
    have hmap : mapToPosition demand supply (some t) =
        DiagramPosition.CONSOLIDATION := by
      simp only [mapToPosition, Option.getD_some]
      rw [if_neg (fun h => by linarith [h.1]), if_neg (fun h => by linarith [h.1]),
        if_neg (fun h => by linarith [h.1]), if_pos ⟨⟨hd1, hd2⟩, hs1⟩]
    refine ⟨?_, ?_⟩
    · rw [hmap]
      simp only [zoneRuleB, Bool.and_eq_true, decide_eq_true_eq]
      exact ⟨⟨hd1, hd2⟩, hs1⟩
    · intro z hz
      rw [hmap]
      cases z <;> simp only [zoneRuleB, Bool.and_eq_true, decide_eq_true_eq] at hz <;>
        first
          | rfl
          | (exfalso; linarith [hz.1, hz.2])
          | (exfalso; linarith [hz.1.1, hz.1.2, hz.2])
          | (exfalso; linarith [hz.1, hz.2.1, hz.2.2])
  · -- demand neutral, supply neutral: CHAOS
    have hmap : mapToPosition demand supply (some t) = DiagramPosition.CHAOS := by
      simp only [mapToPosition, Option.getD_some]
      rw [if_neg (fun h => by linarith [h.1]), if_neg (fun h => by linarith [h.1]),
        if_neg (fun h => by linarith [h.1]), if_neg (fun h => by linarith [h.2]),
        if_pos ⟨⟨hd1, hd2⟩, hs1, hs2⟩]
    refine ⟨?_, ?_⟩
    · rw [hmap]
      simp only [zoneRuleB, Bool.and_eq_true, decide_eq_true_eq]
      exact ⟨⟨hd1, hd2⟩, hs1, hs2⟩
    · intro z hz
      rw [hmap]
      cases z <;> simp only [zoneRuleB, Bool.and_eq_true, decide_eq_true_eq] at hz <;>
        first
          | rfl
          | (exfalso; linarith [hz.1, hz.2])
          | (exfalso; linarith [hz.1.1, hz.1.2, hz.2])
          | (exfalso; linarith [hz.1, hz.2.1, hz.2.2])
  · -- demand neutral, supply strong: DISTRIBUTION
    have hmap : mapToPosition demand supply (some t) =
        DiagramPosition.DISTRIBUTION := by
      simp only [mapToPosition, Option.getD_some]
      rw [if_neg (fun h => by linarith [h.1]), if_neg (fun h => by linarith [h.1]),
        if_neg (fun h => by linarith [h.1]), if_neg (fun h => by linarith [h.2]),
        if_neg (fun h => by linarith [h.2.2]), if_pos ⟨⟨hd1, hd2⟩, hs1⟩]
    refine ⟨?_, ?_⟩
    · rw [hmap]
      simp only [zoneRuleB, Bool.and_eq_true, decide_eq_true_eq]
      exact ⟨⟨hd1, hd2⟩, hs1⟩
    · intro z hz
      rw [hmap]
      cases z <;> simp only [zoneRuleB, Bool.and_eq_true, decide_eq_true_eq] at hz <;>
        first
          | rfl
          | (exfalso; linarith [hz.1, hz.2])
          | (exfalso; linarith [hz.1.1, hz.1.2, hz.2])
          | (exfalso; linarith [hz.1, hz.2.1, hz.2.2])
  · -- demand strong, supply weak: FREE_RISE
    have hmap : mapToPosition demand supply (some t) = DiagramPosition.FREE_RISE := by
      simp only [mapToPosition, Option.getD_some]
      rw [if_pos ⟨hd1, hs1⟩]
    refine ⟨?_, ?_⟩
    · rw [hmap]
      simp only [zoneRuleB, Bool.and_eq_true, decide_eq_true_eq]
      exact ⟨hd1, hs1⟩
    · intro z hz
      rw [hmap]
      cases z <;> simp only [zoneRuleB, Bool.and_eq_true, decide_eq_true_eq] at hz <;>
        first
          | rfl
          | (exfalso; linarith [hz.1, hz.2])
          | (exfalso; linarith [hz.1.1, hz.1.2, hz.2])
          | (exfalso; linarith [hz.1, hz.2.1, hz.2.2])
  · -- demand strong, supply neutral: WEAK_BULL
    have hmap : mapToPosition demand supply (some t) = DiagramPosition.WEAK_BULL := by
      simp only [mapToPosition, Option.getD_some]
      rw [if_neg (fun h => by linarith [h.2]), if_pos ⟨hd1, hs1, hs2⟩]
    refine ⟨?_, ?_⟩
    · rw [hmap]
      simp only [zoneRuleB, Bool.and_eq_true, decide_eq_true_eq]
      exact ⟨hd1, hs1, hs2⟩
    · intro z hz
      rw [hmap]
      cases z <;> simp only [zoneRuleB, Bool.and_eq_true, decide_eq_true_eq] at hz <;>
        first
          | rfl
          | (exfalso; linarith [hz.1, hz.2])
          | (exfalso; linarith [hz.1.1, hz.1.2, hz.2])
          | (exfalso; linarith [hz.1, hz.2.1, hz.2.2])
  · -- demand strong, supply strong: BEAR_RALLY
    have hmap : mapToPosition demand supply (some t) = DiagramPosition.BEAR_RALLY := by
      simp only [mapToPosition, Option.getD_some]
      rw [if_neg (fun h => by linarith [h.2]), if_neg (fun h => by linarith [h.2.2]),
        if_pos ⟨hd1, hs1⟩]
    refine ⟨?_, ?_⟩
    · rw [hmap]
      simp only [zoneRuleB, Bool.and_eq_true, decide_eq_true_eq]
      exact ⟨hd1, hs1⟩
    · intro z hz
      rw [hmap]
      cases z <;> simp only [zoneRuleB, Bool.and_eq_true, decide_eq_true_eq] at hz <;>
        first
          | rfl
          | (exfalso; linarith [hz.1, hz.2])
          | (exfalso; linarith [hz.1.1, hz.1.2, hz.2])
          | (exfalso; linarith [hz.1, hz.2.1, hz.2.2])

/-- Witness for C2 at demand = 10, supply = -40, threshold = 30 over `ℚ`. -/
theorem mapToPosition_zone_partition_witness :
    (0 : ℚ) < 30 ∧
      (zoneRuleB (10 : ℚ) (-40) 30 (mapToPosition (10 : ℚ) (-40) (some 30)) = true ∧
        ∀ z : DiagramPosition, zoneRuleB (10 : ℚ) (-40) 30 z = true →
          z = mapToPosition (10 : ℚ) (-40) (some 30)) :=
  ⟨by norm_num, mapToPosition_zone_partition (10 : ℚ) (-40) 30 (by norm_num)⟩

/-! `forceCalculations.ts` (the ForceCalculator). -/

instance {α : Type} [Zero α] : Inhabited (OHLCVData α) :=
  ⟨⟨0, 0, 0, 0, 0, 0⟩⟩

/-- `CalculationMethod` from `types.ts`. -/
inductive CalculationMethod : Type
  | A
  | B
  | C
  | D
  deriving DecidableEq

/-- `clamp` from `forceCalculations.ts`: a NaN or non-finite value (modelled as
`none`) is sanitized to 0; a finite value is clamped to `[lo, hi]`. -/
def clamp {α : Type} [LinearOrder α] [Zero α] (value : Option α) (lo hi : α) : α :=
  match value with
  | none => 0
  | some v => max lo (min hi v)

/-- The `{...item, demand, supply}` record spread used by all four methods. -/
def withForces {α : Type} (item : OHLCVData α) (demand supply : α) : MarketData α :=
  { date := item.date, openPrice := item.openPrice, high := item.high,
    low := item.low, close := item.close, volume := item.volume,
    demand := demand, supply := supply }

lemma withForces_demand {α : Type} (item : OHLCVData α) (d s : α) :
    (withForces item d s).demand = d := rfl

lemma withForces_supply {α : Type} (item : OHLCVData α) (d s : α) :
    (withForces item d s).supply = s := rfl

/-- Method A, per-bar body (given the precomputed raw money flows). -/
def methodAAt {α : Type} [LinearOrderedField α]
    (data : List (OHLCVData α)) (rawMoneyFlows : List α) (index : ℕ) :
    MarketData α :=
  let period : ℕ := 14
  let item := data.getD index default
  if index < period then withForces item 0 0
  else
    let window := (rawMoneyFlows.drop (index + 1 - period)).take period
    let positiveMF := (window.filter (fun x => 0 < x)).sum
    let negativeMF := ((window.filter (fun x => ¬0 < x)).map (fun x => |x|)).sum
    let mfRatio := if negativeMF = 0 then 100 else positiveMF / negativeMF
    let mfi := 100 - 100 / (1 + mfRatio)
    let demand := (mfi - 50) * 2
    let supply := (50 - mfi) * 2
    withForces item (clamp (some demand) (-100) 100) (clamp (some supply) (-100) 100)

/-- `calculateMethodA` from `forceCalculations.ts` (MFI based, period 14).
A tie in the typical price counts as a rise (`>=` in the source). -/
def calculateMethodA {α : Type} [LinearOrderedField α]
    (data : List (OHLCVData α)) : List (MarketData α) :=
  let typicalPrices : List α :=
    data.map (fun item => (item.high + item.low + item.close) / 3)
  let rawMoneyFlows : List α :=
    (List.range data.length).map (fun index =>
      let typicalPrice := typicalPrices.getD index 0
      let prevTypicalPrice :=
        if 0 < index then typicalPrices.getD (index - 1) 0 else typicalPrice
      let item := data.getD index default
      let rawMF := typicalPrice * item.volume
      if prevTypicalPrice ≤ typicalPrice then rawMF else -rawMF)
  (List.range data.length).map (methodAAt data rawMoneyFlows)

/-- Method B, per-bar body of the normalization pass (given the precomputed
raw demand/supply pairs). -/
def methodBAt {α : Type} [LinearOrderedField α]
    (data : List (OHLCVData α)) (rawPairs : List (α × α)) (index : ℕ) :
    MarketData α :=
  let lookback : ℕ := 20
  let item := data.getD index default
  if index < lookback then withForces item 0 0
  else
    let window := (rawPairs.drop (index + 1 - lookback)).take lookback
    let maxDemand := window.foldl (fun m p => max m |p.1|) (1 / 1000)
    let maxSupply := window.foldl (fun m p => max m |p.2|) (1 / 1000)
    let demand := (rawPairs.getD index (0, 0)).1 / maxDemand * 100
    let supply := (rawPairs.getD index (0, 0)).2 / maxSupply * 100
    withForces item (clamp (some demand) (-100) 100) (clamp (some supply) (-100) 100)

/-- `calculateMethodB` from `forceCalculations.ts` (price-volume momentum with
rolling normalization, lookback 20).  The source's `isNaN` checks on
`prev.close`, `priceRange` and `momentum` are vacuous under exact arithmetic
and are subsumed by the `= 0` guards. -/
def calculateMethodB {α : Type} [LinearOrderedField α] (M : JsMath α)
    (data : List (OHLCVData α)) : List (MarketData α) :=
  let rawPairs : List (α × α) :=
    (List.range data.length).map (fun index =>
      if index = 0 then (0, 0)
      else
        let item := data.getD index default
        let prev := data.getD (index - 1) default
        let priceRange := item.high - item.low
        if prev.close = 0 then (0, 0)
        else
          let priceChangePercent := (item.close - prev.close) / prev.close * 100
          if priceRange = 0 then (0, 0)
          else
            let clv := (item.close - item.low - (item.high - item.close)) / priceRange
            let volumeFactor := if 0 < item.volume then M.log10 (item.volume + 1) else 1
            let momentum := clv * |priceChangePercent| * volumeFactor
            if 0 ≤ priceChangePercent then (momentum, -momentum * (3 / 10))
            else (momentum * (3 / 10), -momentum))
  (List.range data.length).map (methodBAt data rawPairs)

/-- Method C, per-bar body (given the precomputed average gain/loss pairs and
volume ratios). -/
def methodCAt {α : Type} [LinearOrderedField α]
    (data : List (OHLCVData α)) (avgPairs : List (α × α)) (volumeRatios : List α)
    (index : ℕ) : MarketData α :=
  let rsiPeriod : ℕ := 14
  let item := data.getD index default
  if index < rsiPeriod then withForces item 0 0
  else
    let avgGain := (avgPairs.getD index (0, 0)).1
    let avgLoss := (avgPairs.getD index (0, 0)).2
    let rs := if avgLoss = 0 then 100 else avgGain / avgLoss
    let rsi := 100 - 100 / (1 + rs)
    let volumeConfirm := min 2 (max (1 / 2) (volumeRatios.getD index 1))
    let rsiCentered := rsi - 50
    let demand :=
      if 0 ≤ rsiCentered then rsiCentered / 50 * 100 * volumeConfirm
      else rsiCentered / 50 * 50
    let supply :=
      if 0 ≤ rsiCentered then -(rsiCentered / 50) * 50
      else -rsiCentered / 50 * 100 * volumeConfirm
    withForces item (clamp (some demand) (-100) 100) (clamp (some supply) (-100) 100)

/-- `calculateMethodC` from `forceCalculations.ts` (RSI-volume hybrid,
RSI period 14 with Wilder smoothing, volume period 10). -/
def calculateMethodC {α : Type} [LinearOrderedField α]
    (data : List (OHLCVData α)) : List (MarketData α) :=
  let rsiPeriod : ℕ := 14
  let volumePeriod : ℕ := 10
  let gains : List α :=
    (List.range data.length).map (fun index =>
      if index = 0 then 0
      else max 0 ((data.getD index default).close - (data.getD (index - 1) default).close))
  let losses : List α :=
    (List.range data.length).map (fun index =>
      if index = 0 then 0
      else max 0 (-((data.getD index default).close - (data.getD (index - 1) default).close)))
  let avgPairs : List (α × α) :=
    (List.range data.length).foldl
      (fun acc index =>
        acc ++ [if index < rsiPeriod then (0, 0)
          else if index = rsiPeriod then
            (((gains.drop 1).take rsiPeriod).sum / (rsiPeriod : α),
              ((losses.drop 1).take rsiPeriod).sum / (rsiPeriod : α))
          else
            let prev := acc.getD (index - 1) (0, 0)
            ((prev.1 * ((rsiPeriod : α) - 1) + gains.getD index 0) / (rsiPeriod : α),
              (prev.2 * ((rsiPeriod : α) - 1) + losses.getD index 0) / (rsiPeriod : α))])
      []
  let volumeRatios : List α :=
    (List.range data.length).map (fun index =>
      if index < volumePeriod then 1
      else
        let sumVolume :=
          (((data.drop (index - volumePeriod)).take volumePeriod).map
            (fun d => d.volume)).sum
        let avgVolume := sumVolume / (volumePeriod : α)
        if 0 < avgVolume then (data.getD index default).volume / avgVolume else 1)
  (List.range data.length).map (methodCAt data avgPairs volumeRatios)

/-- Method D, per-bar body (given the precomputed money-flow volumes). -/
def methodDAt {α : Type} [LinearOrderedField α]
    (data : List (OHLCVData α)) (mfVolumes : List α) (index : ℕ) : MarketData α :=
  let period : ℕ := 21
  let item := data.getD index default
  if index < period then withForces item 0 0
  else
    let sumMFV := ((mfVolumes.drop (index + 1 - period)).take period).sum
    let sumVolume :=
      (((data.drop (index + 1 - period)).take period).map (fun d => d.volume)).sum
    let cmf := if sumVolume = 0 then 0 else sumMFV / sumVolume
    let prevCMF :=
      if period + 5 ≤ index then
        let prevSumMFV := ((mfVolumes.drop (index - period - 4)).take period).sum
        let prevSumVolume :=
          (((data.drop (index - period - 4)).take period).map (fun d => d.volume)).sum
        if prevSumVolume = 0 then 0 else prevSumMFV / prevSumVolume
      else 0
    let cmfChange := cmf - prevCMF
    let momentumBoost := 1 + |cmfChange| * 5
    let demand := cmf * 100 * momentumBoost
    let supply := -cmf * 100 * momentumBoost
    withForces item (clamp (some demand) (-100) 100) (clamp (some supply) (-100) 100)

/-- `calculateMethodD` from `forceCalculations.ts` (Chaikin money flow,
period 21, with the 5-bar-lagged previous CMF momentum boost). -/
def calculateMethodD {α : Type} [LinearOrderedField α]
    (data : List (OHLCVData α)) : List (MarketData α) :=
  let mfVolumes : List α :=
    data.map (fun item =>
      let priceRange := item.high - item.low
      if priceRange = 0 then 0
      else (item.close - item.low - (item.high - item.close)) / priceRange * item.volume)
  (List.range data.length).map (methodDAt data mfVolumes)

/-- `calculateForces` from `forceCalculations.ts`.  The source's `default`
switch case (falling back to Method B) is unreachable for the four-valued
`CalculationMethod` type. -/
def calculateForces {α : Type} [LinearOrderedField α] (M : JsMath α)
    (data : List (OHLCVData α)) : CalculationMethod → List (MarketData α)
  | CalculationMethod.A => calculateMethodA data
  | CalculationMethod.B => calculateMethodB M data
  | CalculationMethod.C => calculateMethodC data
  | CalculationMethod.D => calculateMethodD data

/-- Each method's warm-up period (spec §4.1: A and C use 14, B uses 20,
D uses 21). -/
def warmupPeriod : CalculationMethod → ℕ
  | CalculationMethod.A => 14
  | CalculationMethod.B => 20
  | CalculationMethod.C => 14
  | CalculationMethod.D => 21

lemma clamp_mem {α : Type} [LinearOrderedField α] (v : Option α) :
    -100 ≤ clamp v (-100) 100 ∧ clamp v (-100) 100 ≤ 100 := by
  cases v with
  | none => norm_num [clamp]
  | some x =>
    refine ⟨le_max_left _ _, max_le (by norm_num) (min_le_left _ _)⟩

lemma methodAAt_bounded {α : Type} [LinearOrderedField α]
    (data : List (OHLCVData α)) (raw : List α) (index : ℕ) :
    -100 ≤ (methodAAt data raw index).demand ∧
      (methodAAt data raw index).demand ≤ 100 ∧
      -100 ≤ (methodAAt data raw index).supply ∧
      (methodAAt data raw index).supply ≤ 100 := by
  simp only [methodAAt]
  split_ifs with h
  · simp only [withForces_demand, withForces_supply]
    norm_num
  all_goals
    simp only [withForces_demand, withForces_supply]
    exact ⟨(clamp_mem _).1, (clamp_mem _).2, (clamp_mem _).1, (clamp_mem _).2⟩

lemma methodBAt_bounded {α : Type} [LinearOrderedField α]
    (data : List (OHLCVData α)) (raw : List (α × α)) (index : ℕ) :
    -100 ≤ (methodBAt data raw index).demand ∧
      (methodBAt data raw index).demand ≤ 100 ∧
      -100 ≤ (methodBAt data raw index).supply ∧
      (methodBAt data raw index).supply ≤ 100 := by
  simp only [methodBAt]
  split_ifs with h
  · simp only [withForces_demand, withForces_supply]
    norm_num
  all_goals
    simp only [withForces_demand, withForces_supply]
    exact ⟨(clamp_mem _).1, (clamp_mem _).2, (clamp_mem _).1, (clamp_mem _).2⟩

lemma methodCAt_bounded {α : Type} [LinearOrderedField α]
    (data : List (OHLCVData α)) (avgPairs : List (α × α)) (vr : List α)
    (index : ℕ) :
    -100 ≤ (methodCAt data avgPairs vr index).demand ∧
      (methodCAt data avgPairs vr index).demand ≤ 100 ∧
      -100 ≤ (methodCAt data avgPairs vr index).supply ∧
      (methodCAt data avgPairs vr index).supply ≤ 100 := by
  simp only [methodCAt]
  split_ifs with h
  · simp only [withForces_demand, withForces_supply]
    norm_num
  all_goals
    simp only [withForces_demand, withForces_supply]
    exact ⟨(clamp_mem _).1, (clamp_mem _).2, (clamp_mem _).1, (clamp_mem _).2⟩

lemma methodDAt_bounded {α : Type} [LinearOrderedField α]
    (data : List (OHLCVData α)) (mfv : List α) (index : ℕ) :
    -100 ≤ (methodDAt data mfv index).demand ∧
      (methodDAt data mfv index).demand ≤ 100 ∧
      -100 ≤ (methodDAt data mfv index).supply ∧
      (methodDAt data mfv index).supply ≤ 100 := by
  simp only [methodDAt]
  split_ifs with h
  · simp only [withForces_demand, withForces_supply]
    norm_num
  all_goals
    simp only [withForces_demand, withForces_supply]
    exact ⟨(clamp_mem _).1, (clamp_mem _).2, (clamp_mem _).1, (clamp_mem _).2⟩

lemma methodAAt_warmup {α : Type} [LinearOrderedField α]
    (data : List (OHLCVData α)) (raw : List α) (index : ℕ) (h : index < 14) :
    (methodAAt data raw index).demand = 0 ∧ (methodAAt data raw index).supply = 0 := by
  simp only [methodAAt]
  rw [if_pos h]
  exact ⟨rfl, rfl⟩

lemma methodBAt_warmup {α : Type} [LinearOrderedField α]
    (data : List (OHLCVData α)) (raw : List (α × α)) (index : ℕ) (h : index < 20) :
    (methodBAt data raw index).demand = 0 ∧ (methodBAt data raw index).supply = 0 := by
  simp only [methodBAt]
  rw [if_pos h]
  exact ⟨rfl, rfl⟩

lemma methodCAt_warmup {α : Type} [LinearOrderedField α]
    (data : List (OHLCVData α)) (avgPairs : List (α × α)) (vr : List α)
    (index : ℕ) (h : index < 14) :
    (methodCAt data avgPairs vr index).demand = 0 ∧
      (methodCAt data avgPairs vr index).supply = 0 := by
  simp only [methodCAt]
  rw [if_pos h]
  exact ⟨rfl, rfl⟩

lemma methodDAt_warmup {α : Type} [LinearOrderedField α]
    (data : List (OHLCVData α)) (mfv : List α) (index : ℕ) (h : index < 21) :
    (methodDAt data mfv index).demand = 0 ∧ (methodDAt data mfv index).supply = 0 := by
  simp only [methodDAt]
  rw [if_pos h]
  exact ⟨rfl, rfl⟩

/-- C1: for every bar sequence and every method, every demand/supply value
produced by `calculateForces` lies in `[-100, 100]`; entries before the
method's warm-up period have demand = supply = 0; and the final `clamp` step
sanitizes a NaN/non-finite value (modelled `none`) to 0. -/
theorem calculateForces_bounded {α : Type} [LinearOrderedField α]
    (M : JsMath α) (data : List (OHLCVData α)) (method : CalculationMethod) :
    ((calculateForces M data method).all (fun s =>
        decide (-100 ≤ s.demand) && decide (s.demand ≤ 100) &&
          (decide (-100 ≤ s.supply) && decide (s.supply ≤ 100))) = true) ∧
      (((calculateForces M data method).take (warmupPeriod method)).all (fun s =>
        decide (s.demand = 0) && decide (s.supply = 0)) = true) ∧
      clamp (none : Option α) (-100) 100 = 0 := by
  refine ⟨?_, ?_, rfl⟩
  · rw [List.all_eq_true]
    intro s hs
    cases method <;>
      simp only [calculateForces, calculateMethodA, calculateMethodB,
        calculateMethodC, calculateMethodD, List.mem_map] at hs <;>
      obtain ⟨index, hindex, rfl⟩ := hs <;>
      simp only [Bool.and_eq_true, decide_eq_true_eq]
    · exact ⟨⟨(methodAAt_bounded _ _ _).1, (methodAAt_bounded _ _ _).2.1⟩,
        (methodAAt_bounded _ _ _).2.2.1, (methodAAt_bounded _ _ _).2.2.2⟩
    · exact ⟨⟨(methodBAt_bounded _ _ _).1, (methodBAt_bounded _ _ _).2.1⟩,
        (methodBAt_bounded _ _ _).2.2.1, (methodBAt_bounded _ _ _).2.2.2⟩
    · exact ⟨⟨(methodCAt_bounded _ _ _ _).1, (methodCAt_bounded _ _ _ _).2.1⟩,
        (methodCAt_bounded _ _ _ _).2.2.1, (methodCAt_bounded _ _ _ _).2.2.2⟩
    · exact ⟨⟨(methodDAt_bounded _ _ _).1, (methodDAt_bounded _ _ _).2.1⟩,
        (methodDAt_bounded _ _ _).2.2.1, (methodDAt_bounded _ _ _).2.2.2⟩
  · rw [List.all_eq_true]
    intro s hs
    rw [List.mem_take_iff_getElem] at hs
    obtain ⟨i, hi, rfl⟩ := hs
    have hiw : i < warmupPeriod method := lt_of_lt_of_le hi (by
      exact le_trans (min_le_left _ _) le_rfl)
    cases method <;>
      simp only [calculateForces, calculateMethodA, calculateMethodB,
        calculateMethodC, calculateMethodD, List.getElem_map, List.getElem_range,
        Bool.and_eq_true, decide_eq_true_eq]
    · exact methodAAt_warmup _ _ _ hiw
    · exact methodBAt_warmup _ _ _ hiw
    · exact methodCAt_warmup _ _ _ _ hiw
    · exact methodDAt_warmup _ _ _ hiw

/-! `calculateRSI` from the 10-strategy version of `strategies.ts`
(the strategy-library RSI indicator). -/

/-- `calculateRSI` from the strategy library: index 0 and every index below
`period` yield 50; at `i = period` the average gain/loss is the simple mean of
`gains[1..period]`; at `i > period` the source recomputes the averages as the
simple mean over the trailing `period` gains/losses (`slice(i-period+1, i+1)`),
and `avgLoss = 0` yields RSI 100. -/
def calculateRSI {α : Type} [LinearOrderedField α]
    (data : List (MarketData α)) (period : ℕ) : List α :=
  let gains : List α :=
    (List.range data.length).map (fun i =>
      if i = 0 then 0
      else max 0 ((data.getD i default).close - (data.getD (i - 1) default).close))
  let losses : List α :=
    (List.range data.length).map (fun i =>
      if i = 0 then 0
      else max 0 (-((data.getD i default).close - (data.getD (i - 1) default).close)))
  (List.range data.length).map (fun i =>
    if i = 0 then 50
    else if i < period then 50
    else
      let avgGain :=
        if i = period then ((gains.drop 1).take period).sum / (period : α)
        else ((gains.drop (i + 1 - period)).take period).sum / (period : α)
      let avgLoss :=
        if i = period then ((losses.drop 1).take period).sum / (period : α)
        else ((losses.drop (i + 1 - period)).take period).sum / (period : α)
      if avgLoss = 0 then 100
      else 100 - 100 / (1 + avgGain / avgLoss))

/-- The RSI that claim C6 describes, following the specification's words
(§4.3/§4.1 Method C): Wilder smoothing — the first average gain/loss is a
simple mean over the first `period` gain/loss values and every subsequent bar
uses `(prevAvg*(period-1) + new)/period` — seeded with 50 at index 0 and before
`period`.  Comparison definition for the refutation below. -/
def wilderRSI {α : Type} [LinearOrderedField α]
    (data : List (MarketData α)) (period : ℕ) : List α :=
  let gains : List α :=
    (List.range data.length).map (fun i =>
      if i = 0 then 0
      else max 0 ((data.getD i default).close - (data.getD (i - 1) default).close))
  let losses : List α :=
    (List.range data.length).map (fun i =>
      if i = 0 then 0
      else max 0 (-((data.getD i default).close - (data.getD (i - 1) default).close)))
  let avgPairs : List (α × α) :=
    (List.range data.length).foldl
      (fun acc i =>
        acc ++ [if i < period then (0, 0)
          else if i = period then
            (((gains.drop 1).take period).sum / (period : α),
              ((losses.drop 1).take period).sum / (period : α))
          else
            let prev := acc.getD (i - 1) (0, 0)
            ((prev.1 * ((period : α) - 1) + gains.getD i 0) / (period : α),
              (prev.2 * ((period : α) - 1) + losses.getD i 0) / (period : α))])
      []
  (List.range data.length).map (fun i =>
    if i = 0 ∨ i < period then 50
    else
      let avgGain := (avgPairs.getD i (0, 0)).1
      let avgLoss := (avgPairs.getD i (0, 0)).2
      let rs := if avgLoss = 0 then 100 else avgGain / avgLoss
      100 - 100 / (1 + rs))

/-- A constant-price probe bar for concrete RSI evaluations. -/
def probeBar (c : ℚ) : MarketData ℚ :=
  { date := 0, openPrice := c, high := c, low := c, close := c, volume := 0,
    demand := 0, supply := 0 }

/-- Four probe bars whose closes are 4, 1, 1, 1. -/
def rsiProbeBars : List (MarketData ℚ) :=
  [probeBar 4, probeBar 1, probeBar 1, probeBar 1]

/-- C6 counterexample: on closes (4, 1, 1, 1) with period 2, the library RSI
at index 3 is 100 (trailing-window simple mean gives average loss 0), whereas
the claimed Wilder smoothing gives 0 (the smoothed average loss is 3/4, the
smoothed average gain 0).  So `calculateRSI` is not Wilder-smoothed. -/
theorem calculateRSI_not_wilder :
    (calculateRSI rsiProbeBars 2).getD 3 0 = 100 ∧
      (wilderRSI rsiProbeBars 2).getD 3 0 = 0 ∧
      (calculateRSI rsiProbeBars 2).getD 3 0 ≠ (wilderRSI rsiProbeBars 2).getD 3 0 := by
  have h1 : (calculateRSI rsiProbeBars 2).getD 3 0 = 100 := by
    simp only [calculateRSI, rsiProbeBars, probeBar]
    norm_num [List.range_succ, max_def, min_def, List.getD]
  have h2 : (wilderRSI rsiProbeBars 2).getD 3 0 = 0 := by
    simp only [wilderRSI, rsiProbeBars, probeBar]
    norm_num [List.range_succ, max_def, min_def, List.getD]
  exact ⟨h1, h2, by rw [h1, h2]; norm_num⟩

/-- The per-index trailing-window (Cutler-style) RSI, computed directly from
the closes: 50 at index 0 and below `period`; otherwise the average gain/loss
is the simple mean of the trailing `period` close-to-close gains/losses, with
RSI 100 when the average loss is 0. -/
def rollingRSISpec {α : Type} [LinearOrderedField α]
    (data : List (MarketData α)) (period : ℕ) (i : ℕ) : α :=
  if i = 0 ∨ i < period then 50
  else
    let gainAt : ℕ → α := fun j =>
      if j = 0 then 0
      else max 0 ((data.getD j default).close - (data.getD (j - 1) default).close)
    let lossAt : ℕ → α := fun j =>
      if j = 0 then 0
      else max 0 (-((data.getD j default).close - (data.getD (j - 1) default).close))
    let avgGain := ((List.range period).map (fun k => gainAt (i + 1 - period + k))).sum / (period : α)
    let avgLoss := ((List.range period).map (fun k => lossAt (i + 1 - period + k))).sum / (period : α)
    if avgLoss = 0 then 100 else 100 - 100 / (1 + avgGain / avgLoss)

lemma window_eq_map_range {α : Type} [Zero α] (l : List α) (a b : ℕ)
    (h : a + b ≤ l.length) :
    (l.drop a).take b = (List.range b).map (fun k => l.getD (a + k) 0) := by
  apply List.ext_getElem
  · simp only [List.length_take, List.length_drop, List.length_map, List.length_range]
    omega
  · intro i h1 h2
    have hlt : a + i < l.length := by
      simp only [List.length_take, List.length_drop] at h1
      omega
    rw [List.getElem_take, List.getElem_drop, List.getElem_map, List.getElem_range,
      List.getD_eq_getElem l 0 hlt]

lemma getD_range_map {α : Type} (f : ℕ → α) (n i : ℕ) (d : α) (h : i < n) :
    ((List.range n).map f).getD i d = f i := by
  rw [List.getD_eq_getElem _ d (by simpa using h), List.getElem_map, List.getElem_range]

/-- C6 amended: the library RSI is seeded with 50 at index 0 and at every index
below `period`, its first average gain/loss at `i = period` is the simple mean
over the first `period` gain/loss values, but every later bar recomputes the
averages as the *simple mean over the trailing `period` gains/losses*
(Cutler-style rolling window) rather than by Wilder's recurrence: the series
equals `rollingRSISpec` at every index. -/
theorem calculateRSI_eq_rollingRSISpec {α : Type} [LinearOrderedField α]
    (data : List (MarketData α)) (period : ℕ) :
    calculateRSI data period =
      (List.range data.length).map (rollingRSISpec data period) := by
  unfold calculateRSI
  apply List.map_congr_left
  intro i hi
  rw [List.mem_range] at hi
  by_cases h0 : i = 0
  · simp [rollingRSISpec, h0]
  · by_cases hlt : i < period
    · simp [rollingRSISpec, h0, hlt]
    · have hip : period ≤ i := le_of_not_lt hlt
      have hwinG : ∀ a, a + period ≤ data.length →
          ((((List.range data.length).map (fun j =>
            if j = 0 then (0 : α)
            else max 0 ((data.getD j default).close -
              (data.getD (j - 1) default).close))).drop a).take period) =
          (List.range period).map (fun k =>
            if a + k = 0 then (0 : α)
            else max 0 ((data.getD (a + k) default).close -
              (data.getD (a + k - 1) default).close)) := by
        intro a ha
        rw [window_eq_map_range _ a period (by simpa using ha)]
        apply List.map_congr_left
        intro k hk
        rw [List.mem_range] at hk
        exact getD_range_map _ _ _ _ (by omega)
      have hwinL : ∀ a, a + period ≤ data.length →
          ((((List.range data.length).map (fun j =>
            if j = 0 then (0 : α)
            else max 0 (-((data.getD j default).close -
              (data.getD (j - 1) default).close)))).drop a).take period) =
          (List.range period).map (fun k =>
            if a + k = 0 then (0 : α)
            else max 0 (-((data.getD (a + k) default).close -
              (data.getD (a + k - 1) default).close))) := by
        intro a ha
        rw [window_eq_map_range _ a period (by simpa using ha)]
        apply List.map_congr_left
        intro k hk
        rw [List.mem_range] at hk
        exact getD_range_map _ _ _ _ (by omega)
      have hbound : i + 1 - period + period ≤ data.length := by omega
      by_cases hep : i = period
      · have h1 : i + 1 - period = 1 := by omega
        simp only [rollingRSISpec, h0, hlt, if_neg (by simp [h0, hlt] : ¬(i = 0 ∨ i < period)),
          if_neg h0, if_neg hlt, if_pos hep]
        rw [hwinG 1 (by omega), hwinL 1 (by omega), h1]
        simp
      · simp only [rollingRSISpec, h0, hlt, if_neg (by simp [h0, hlt] : ¬(i = 0 ∨ i < period)),
          if_neg h0, if_neg hlt, if_neg hep]
        rw [hwinG (i + 1 - period) hbound, hwinL (i + 1 - period) hbound]
        simp

/-! `strategies.ts` (the 12-strategy version used by the backtester and the
optimizer): shared indicator primitives.  Indicator arrays may hold `NaN`
(warm-up prefixes), so they are `List (Option α)`. -/

/-- JavaScript truncation toward zero (`ToIntegerOrInfinity`). -/
def jsTrunc {α : Type} [LinearOrderedField α] [FloorRing α] (x : α) : ℤ :=
  if 0 ≤ x then ⌊x⌋ else -⌊-x⌋

/-- `Array.prototype.slice` with already-integer bounds: negative indices count
from the end, and both bounds are clamped to `[0, length]`. -/
def jsSliceI {β : Type} (l : List β) (a b : ℤ) : List β :=
  let n : ℤ := l.length
  let lo := if a < 0 then max 0 (n + a) else min a n
  let hi := if b < 0 then max 0 (n + b) else min b n
  (l.drop lo.toNat).take (hi - lo).toNat

/-- `Array.prototype.slice` on JavaScript numbers (bounds truncated toward 0). -/
def jsSlice {α β : Type} [LinearOrderedField α] [FloorRing α]
    (l : List β) (a b : α) : List β :=
  jsSliceI l (jsTrunc a) (jsTrunc b)

/-- JavaScript indexing by an arbitrary number: defined only for a non-negative
integral index inside the list, `undefined`/NaN (`none`) otherwise. -/
def jsGet {α β : Type} [LinearOrderedField α] [FloorRing α]
    (l : List β) (x : α) : Option β :=
  if 0 ≤ x ∧ ((⌊x⌋ : ℤ) : α) = x then l.get? ⌊x⌋.toNat else none

/-- `Math.abs` with NaN propagation. -/
def oabs {α : Type} [LinearOrderedField α] : Option α → Option α :=
  Option.map (fun x => |x|)

/-- `x > m` where `m` is `Math.max(...list)` of a possibly-empty list:
`none` models the `-Infinity` of an empty spread, which every finite `x`
exceeds. -/
def jsGtMax {α : Type} [LinearOrder α] (x : α) : Option α → Bool
  | none => true
  | some m => decide (m < x)

/-- `x < m` where `m` is `Math.min(...list)` of a possibly-empty list:
`none` models the `+Infinity` of an empty spread. -/
def jsLtMin {α : Type} [LinearOrder α] (x : α) : Option α → Bool
  | none => true
  | some m => decide (x < m)

/-- `x >= m` for `m = Math.min(...list)` (`none` = `+Infinity`: false). -/
def jsGeMin {α : Type} [LinearOrder α] (x : α) : Option α → Bool
  | none => false
  | some m => decide (m ≤ x)

/-- `Math.max(...l)`: `none` for the empty list (`-Infinity`). -/
def jsMaxList {α : Type} [LinearOrder α] (l : List α) : Option α :=
  l.foldl (fun acc x =>
    match acc with
    | none => some x
    | some m => some (max m x)) none

/-- `Math.min(...l)`: `none` for the empty list (`+Infinity`). -/
def jsMinList {α : Type} [LinearOrder α] (l : List α) : Option α :=
  l.foldl (fun acc x =>
    match acc with
    | none => some x
    | some m => some (min m x)) none

/-- `calculateSMA` from `strategies.ts`: NaN before `period` values are
available, trailing simple mean afterwards. -/
def calculateSMA {α : Type} [LinearOrderedField α] [FloorRing α]
    (data : List (Option α)) (period : α) : List (Option α) :=
  (List.range data.length).map (fun (i : ℕ) =>
    if (i : α) < period - 1 then none
    else
      let sum := (jsSlice data ((i : α) - period + 1) ((i : α) + 1)).foldl oadd (some 0)
      odiv sum (some period))

/-- `calculateEMA` from `strategies.ts`: the seed at index `period - 1` is the
simple mean of the first `period` values; afterwards
`ema[i] = (data[i] - ema[i-1]) * (2/(period+1)) + ema[i-1]`. -/
def calculateEMA {α : Type} [LinearOrderedField α] [FloorRing α]
    (data : List (Option α)) (period : α) : List (Option α) :=
  let multiplier := 2 / (period + 1)
  (List.range data.length).foldl (fun result (i : ℕ) =>
    result ++ [
      if (i : α) < period - 1 then none
      else if (i : α) = period - 1 then
        odiv ((jsSlice data (0 : α) period).foldl oadd (some 0)) (some period)
      else
        oadd (omul (osub (data.getD i none) (result.getD (i - 1) none)) (some multiplier))
          (result.getD (i - 1) none)]) []

/-- `calculateMACD` from `strategies.ts`: MACD = EMA(fast) − EMA(slow); the
signal line is the EMA of the NaN-filtered MACD series, padded back to the
original index alignment; histogram = MACD − signal. -/
def calculateMACD {α : Type} [LinearOrderedField α] [FloorRing α]
    (data : List (MarketData α)) (fastPeriod slowPeriod signalPeriod : α) :
    List (Option α) × List (Option α) × List (Option α) :=
  let closes : List (Option α) := data.map (fun d => some d.close)
  let fastEMA := calculateEMA closes fastPeriod
  let slowEMA := calculateEMA closes slowPeriod
  let macd : List (Option α) :=
    fastEMA.enum.map (fun p => osub p.2 (slowEMA.getD p.1 none))
  let signal := calculateEMA (macd.filter Option.isSome) signalPeriod
  let paddedSignal : List (Option α) :=
    ((List.range macd.length).foldl (fun (acc : List (Option α) × ℕ) i =>
      if (macd.getD i none).isNone ∨ signal.length ≤ acc.2 then (acc.1 ++ [none], acc.2)
      else (acc.1 ++ [signal.getD acc.2 none], acc.2 + 1)) ([], 0)).1
  let histogram : List (Option α) :=
    macd.enum.map (fun p => osub p.2 (paddedSignal.getD p.1 none))
  (macd, paddedSignal, histogram)

/-- The true-range series shared by `calculateATR` and `calculateADX`. -/
def trueRanges {α : Type} [LinearOrderedField α]
    (data : List (MarketData α)) : List α :=
  (List.range data.length).map (fun i =>
    if i = 0 then (data.getD 0 default).high - (data.getD 0 default).low
    else
      max ((data.getD i default).high - (data.getD i default).low)
        (max |(data.getD i default).high - (data.getD (i - 1) default).close|
          |(data.getD i default).low - (data.getD (i - 1) default).close|))

/-- `calculateATR` from `strategies.ts`: seed = simple mean of the first
`period` true ranges, then Wilder smoothing. -/
def calculateATR {α : Type} [LinearOrderedField α] [FloorRing α]
    (data : List (MarketData α)) (period : α) : List (Option α) :=
  let tr := trueRanges data
  (List.range data.length).foldl (fun result (i : ℕ) =>
    result ++ [
      if (i : α) < period - 1 then none
      else if (i : α) = period - 1 then
        some ((jsSlice tr (0 : α) period).sum / period)
      else
        odiv (oadd (omul (result.getD (i - 1) none) (some (period - 1)))
          (some (tr.getD i 0))) (some period)]) []

/-- `calculateADX` from `strategies.ts`: +DM/−DM and TR smoothed by
`calculateEMA`, DI = 100·smoothedDM/smoothedTR (0 when smoothedTR is not
positive), DX from the DI pair, ADX = EMA of DX. -/
def calculateADX {α : Type} [LinearOrderedField α] [FloorRing α]
    (data : List (MarketData α)) (period : α) :
    List (Option α) × List (Option α) × List (Option α) :=
  let plusDM : List α :=
    (List.range data.length).map (fun i =>
      if i = 0 then 0
      else
        let upMove := (data.getD i default).high - (data.getD (i - 1) default).high
        let downMove := (data.getD (i - 1) default).low - (data.getD i default).low
        if downMove < upMove ∧ 0 < upMove then upMove else 0)
  let minusDM : List α :=
    (List.range data.length).map (fun i =>
      if i = 0 then 0
      else
        let upMove := (data.getD i default).high - (data.getD (i - 1) default).high
        let downMove := (data.getD (i - 1) default).low - (data.getD i default).low
        if upMove < downMove ∧ 0 < downMove then downMove else 0)
  let tr := trueRanges data
  let smoothedPlusDM := calculateEMA (plusDM.map some) period
  let smoothedMinusDM := calculateEMA (minusDM.map some) period
  let smoothedTR := calculateEMA (tr.map some) period
  let plusDI : List (Option α) :=
    smoothedPlusDM.enum.map (fun p =>
      if olt (some 0) (smoothedTR.getD p.1 none) then
        omul (odiv p.2 (smoothedTR.getD p.1 none)) (some 100)
      else some 0)
  let minusDI : List (Option α) :=
    smoothedMinusDM.enum.map (fun p =>
      if olt (some 0) (smoothedTR.getD p.1 none) then
        omul (odiv p.2 (smoothedTR.getD p.1 none)) (some 100)
      else some 0)
  let dx : List (Option α) :=
    plusDI.enum.map (fun p =>
      let sum := oadd p.2 (minusDI.getD p.1 none)
      if olt (some 0) sum then
        omul (odiv (oabs (osub p.2 (minusDI.getD p.1 none))) sum) (some 100)
      else some 0)
  let adx := calculateEMA dx period
  (adx, plusDI, minusDI)

/-- `calculateKeltnerChannel` from `strategies.ts`. -/
def calculateKeltnerChannel {α : Type} [LinearOrderedField α] [FloorRing α]
    (data : List (MarketData α)) (emaPeriod atrPeriod multiplier : α) :
    List (Option α) × List (Option α) × List (Option α) :=
  let closes : List (Option α) := data.map (fun d => some d.close)
  let middle := calculateEMA closes emaPeriod
  let atr := calculateATR data atrPeriod
  let upper : List (Option α) :=
    (List.range data.length).map (fun i =>
      if (middle.getD i none).isNone ∨ (atr.getD i none).isNone then none
      else oadd (middle.getD i none) (omul (some multiplier) (atr.getD i none)))
  let lower : List (Option α) :=
    (List.range data.length).map (fun i =>
      if (middle.getD i none).isNone ∨ (atr.getD i none).isNone then none
      else osub (middle.getD i none) (omul (some multiplier) (atr.getD i none)))
  (upper, middle, lower)

/-- `calculateSupertrend` from `strategies.ts`: classic flip logic with
ratcheting final bands; direction 0 marks the warm-up prefix. -/
def calculateSupertrend {α : Type} [LinearOrderedField α] [FloorRing α]
    (data : List (MarketData α)) (period multiplier : α) :
    List (Option α) × List ℤ :=
  let atr := calculateATR data period
  (List.range data.length).foldl (fun (acc : List (Option α) × List ℤ) (i : ℕ) =>
    let st := acc.1
    let dir := acc.2
    if (i : α) < period ∨ (atr.getD i none).isNone then (st ++ [none], dir ++ [0])
    else
      let bar := data.getD i default
      let hl2 := (bar.high + bar.low) / 2
      let atrI := (atr.getD i none).getD 0
      let basicUpperBand := hl2 + multiplier * atrI
      let basicLowerBand := hl2 - multiplier * atrI
      if (i : α) = period then
        (st ++ [some (if basicUpperBand < bar.close then basicLowerBand else basicUpperBand)],
          dir ++ [if basicUpperBand < bar.close then 1 else -1])
      else
        let prevSupertrend := st.getD (i - 1) none
        let prevDirection := dir.getD (i - 1) 0
        let finalUpperBand :=
          if prevDirection = 1 then some basicUpperBand
          else omin (some basicUpperBand) prevSupertrend
        let finalLowerBand :=
          if prevDirection = 1 then omax (some basicLowerBand) prevSupertrend
          else some basicLowerBand
        if prevDirection = 1 then
          if olt (some bar.close) finalLowerBand then
            (st ++ [finalUpperBand], dir ++ [-1])
          else (st ++ [finalLowerBand], dir ++ [1])
        else
          if olt finalUpperBand (some bar.close) then
            (st ++ [finalLowerBand], dir ++ [1])
          else (st ++ [finalUpperBand], dir ++ [-1])) ([], [])

/-! `strategies.ts`: the strategy registry. -/

/-- `StrategySignal` from `strategies.ts`. -/
inductive StrategySignal : Type
  | BUY
  | SELL
  | HOLD
  deriving DecidableEq

/-- `StrategyResult` from `strategies.ts`. -/
structure StrategyResult (α : Type) where
  signals : List StrategySignal
  indicators : List (String × List (Option α))

/-- The `category` union of `Strategy` (12-strategy version). -/
inductive StrategyCategory : Type
  | trend
  | momentum
  | hybrid
  deriving DecidableEq

/-- `StrategyParameter` from `strategies.ts`. -/
structure StrategyParameter (α : Type) where
  id : String
  name : String
  defaultValue : α
  min : α
  max : α
  step : α

/-- `Strategy` from `strategies.ts`. -/
structure Strategy (α : Type) where
  id : String
  name : String
  description : String
  category : StrategyCategory
  parameters : List (StrategyParameter α)
  calculate : List (MarketData α) → List (String × α) → StrategyResult α

/-- `params.x || default`: a missing or zero (falsy) parameter falls back to
the default, as JavaScript `||` does. -/
def param {α : Type} [LinearOrderedField α]
    (params : List (String × α)) (id : String) (dflt : α) : α :=
  match params.find? (fun p => decide (p.1 = id)) with
  | some p => if p.2 = 0 then dflt else p.2
  | none => dflt

/-- Hamilton Diagram strategy `calculate`. -/
def hamiltonCalculate {α : Type} [LinearOrderedField α]
    (data : List (MarketData α)) (params : List (String × α)) : StrategyResult α :=
  let threshold := param params "threshold" 30
  let signals := data.map (fun d =>
    let signal := createTradingSignal d.demand d.supply (some threshold)
    if signal.action = TradeAction.LONG ∨ signal.action = TradeAction.ACCUMULATE then
      StrategySignal.BUY
    else if signal.action = TradeAction.SHORT ∨ signal.action = TradeAction.EXIT_LONG ∨
        signal.action = TradeAction.REDUCE then
      StrategySignal.SELL
    else StrategySignal.HOLD)
  ⟨signals, []⟩

/-- Moving Average Crossover strategy `calculate` (fast/slow EMA cross). -/
def maCrossoverCalculate {α : Type} [LinearOrderedField α] [FloorRing α]
    (data : List (MarketData α)) (params : List (String × α)) : StrategyResult α :=
  let fastPeriod := param params "fastPeriod" 10
  let slowPeriod := param params "slowPeriod" 30
  let closes : List (Option α) := data.map (fun d => some d.close)
  let fastMA := calculateEMA closes fastPeriod
  let slowMA := calculateEMA closes slowPeriod
  let signals := (List.range data.length).map (fun (i : ℕ) =>
    if (i : α) < slowPeriod ∨ (fastMA.getD i none).isNone ∨ (slowMA.getD i none).isNone then
      StrategySignal.HOLD
    else
      let prevFastAbove := olt (slowMA.getD (i - 1) none) (fastMA.getD (i - 1) none)
      let currFastAbove := olt (slowMA.getD i none) (fastMA.getD i none)
      if !prevFastAbove && currFastAbove then StrategySignal.BUY
      else if prevFastAbove && !currFastAbove then StrategySignal.SELL
      else StrategySignal.HOLD)
  ⟨signals, [("fastMA", fastMA), ("slowMA", slowMA)]⟩

/-- MACD Crossover strategy `calculate`. -/
def macdCalculate {α : Type} [LinearOrderedField α] [FloorRing α]
    (data : List (MarketData α)) (params : List (String × α)) : StrategyResult α :=
  let fastPeriod := param params "fastPeriod" 12
  let slowPeriod := param params "slowPeriod" 26
  let signalPeriod := param params "signalPeriod" 9
  let r := calculateMACD data fastPeriod slowPeriod signalPeriod
  let macd := r.1
  let signalLine := r.2.1
  let histogram := r.2.2
  let signals := (List.range data.length).map (fun (i : ℕ) =>
    if (i : α) < slowPeriod + signalPeriod ∨ (macd.getD i none).isNone ∨
        (signalLine.getD i none).isNone then
      StrategySignal.HOLD
    else
      let prevAbove := olt (signalLine.getD (i - 1) none) (macd.getD (i - 1) none)
      let currAbove := olt (signalLine.getD i none) (macd.getD i none)
      if !prevAbove && currAbove then StrategySignal.BUY
      else if prevAbove && !currAbove then StrategySignal.SELL
      else StrategySignal.HOLD)
  ⟨signals, [("macd", macd), ("signal", signalLine), ("histogram", histogram)]⟩

/-- ADX Trend Following strategy `calculate`. -/
def adxTrendCalculate {α : Type} [LinearOrderedField α] [FloorRing α]
    (data : List (MarketData α)) (params : List (String × α)) : StrategyResult α :=
  let period := param params "period" 14
  let threshold := param params "threshold" 25
  let r := calculateADX data period
  let adx := r.1
  let plusDI := r.2.1
  let minusDI := r.2.2
  let signals := (List.range data.length).map (fun (i : ℕ) =>
    if (i : α) < period * 2 ∨ (adx.getD i none).isNone then StrategySignal.HOLD
    else
      let strongTrend := olt (some threshold) (adx.getD i none)
      let bullish := olt (minusDI.getD i none) (plusDI.getD i none)
      let prevBullish := olt (minusDI.getD (i - 1) none) (plusDI.getD (i - 1) none)
      if strongTrend && bullish && !prevBullish then StrategySignal.BUY
      else if strongTrend && !bullish && prevBullish then StrategySignal.SELL
      else StrategySignal.HOLD)
  ⟨signals, [("adx", adx), ("plusDI", plusDI), ("minusDI", minusDI)]⟩

/-- Donchian Breakout (Turtle) strategy `calculate`: stateful entry/exit
channels ride an `inPosition` flag. -/
def donchianBreakoutCalculate {α : Type} [LinearOrderedField α] [FloorRing α]
    (data : List (MarketData α)) (params : List (String × α)) : StrategyResult α :=
  let entryPeriod := param params "entryPeriod" 20
  let exitPeriod := param params "exitPeriod" 10
  let acc := (List.range data.length).foldl
    (fun (acc : List StrategySignal × List (Option α) × List (Option α) × Bool) (i : ℕ) =>
      let signals := acc.1
      let upperChannel := acc.2.1
      let lowerChannel := acc.2.2.1
      let inPosition := acc.2.2.2
      if (i : α) < entryPeriod then
        (signals ++ [StrategySignal.HOLD], upperChannel ++ [none], lowerChannel ++ [none],
          inPosition)
      else
        let bar := data.getD i default
        let entryHighs := (jsSlice data ((i : α) - entryPeriod) (i : α)).map (fun d => d.high)
        let entryLows := (jsSlice data ((i : α) - entryPeriod) (i : α)).map (fun d => d.low)
        let entryUpper := jsMaxList entryHighs
        let entryLower := jsMinList entryLows
        let exitLows := (jsSlice data (max 0 ((i : α) - exitPeriod)) (i : α)).map (fun d => d.low)
        let exitLower := jsMinList exitLows
        if jsGtMax bar.close entryUpper && !inPosition then
          (signals ++ [StrategySignal.BUY], upperChannel ++ [entryUpper],
            lowerChannel ++ [entryLower], true)
        else if jsLtMin bar.close exitLower && inPosition then
          (signals ++ [StrategySignal.SELL], upperChannel ++ [entryUpper],
            lowerChannel ++ [entryLower], false)
        else
          (signals ++ [StrategySignal.HOLD], upperChannel ++ [entryUpper],
            lowerChannel ++ [entryLower], inPosition))
    ([], [], [], false)
  ⟨acc.1, [("upperChannel", acc.2.1), ("lowerChannel", acc.2.2.1)]⟩

/-- Dual Momentum (Antonacci) strategy `calculate`. -/
def dualMomentumCalculate {α : Type} [LinearOrderedField α] [FloorRing α]
    (data : List (MarketData α)) (params : List (String × α)) : StrategyResult α :=
  let lookback := param params "lookback" 200
  let cashReturn := param params "cashReturn" 4 / 100
  let dailyCashReturn := cashReturn / 252
  let signals := (List.range data.length).map (fun (i : ℕ) =>
    if (i : α) < lookback then StrategySignal.HOLD
    else
      let closeI := some (data.getD i default).close
      let baseIdx : α := if (i : α) < lookback then 0 else (i : α) - lookback
      let currentReturn :=
        odiv (osub closeI ((jsGet data baseIdx).map (fun d => d.close)))
          ((jsGet data ((i : α) - lookback)).map (fun d => d.close))
      let cashEquivalent := dailyCashReturn * lookback
      let absoluteMomentum := olt (some 0) currentReturn
      let relativeMomentum := olt (some cashEquivalent) currentReturn
      let prevReturn :=
        if lookback < (i : α) then
          odiv (osub ((jsGet data ((i : α) - 1)).map (fun d => d.close))
              ((jsGet data ((i : α) - 1 - lookback)).map (fun d => d.close)))
            ((jsGet data ((i : α) - 1 - lookback)).map (fun d => d.close))
        else some 0
      let prevAbsolute := olt (some 0) prevReturn
      let prevRelative := olt (some cashEquivalent) prevReturn
      if absoluteMomentum && relativeMomentum && !(prevAbsolute && prevRelative) then
        StrategySignal.BUY
      else if (!absoluteMomentum || !relativeMomentum) && (prevAbsolute && prevRelative) then
        StrategySignal.SELL
      else StrategySignal.HOLD)
  ⟨signals, []⟩

/-- Time Series Momentum strategy `calculate`. -/
def tsmomCalculate {α : Type} [LinearOrderedField α] [FloorRing α]
    (data : List (MarketData α)) (params : List (String × α)) : StrategyResult α :=
  let lookback := param params "lookback" 200
  let signals := (List.range data.length).map (fun (i : ℕ) =>
    if (i : α) < lookback then StrategySignal.HOLD
    else
      let closeI := some (data.getD i default).close
      let currentReturn :=
        odiv (osub closeI ((jsGet data ((i : α) - lookback)).map (fun d => d.close)))
          ((jsGet data ((i : α) - lookback)).map (fun d => d.close))
      let prevReturn :=
        if lookback < (i : α) then
          odiv (osub ((jsGet data ((i : α) - 1)).map (fun d => d.close))
              ((jsGet data ((i : α) - 1 - lookback)).map (fun d => d.close)))
            ((jsGet data ((i : α) - 1 - lookback)).map (fun d => d.close))
        else some 0
      if olt (some 0) currentReturn && ole prevReturn (some 0) then StrategySignal.BUY
      else if ole currentReturn (some 0) && olt (some 0) prevReturn then StrategySignal.SELL
      else StrategySignal.HOLD)
  ⟨signals, []⟩

/-- Keltner Channel Breakout strategy `calculate` (stateful). -/
def keltnerBreakoutCalculate {α : Type} [LinearOrderedField α] [FloorRing α]
    (data : List (MarketData α)) (params : List (String × α)) : StrategyResult α :=
  let emaPeriod := param params "emaPeriod" 20
  let atrPeriod := param params "atrPeriod" 14
  let multiplier := param params "multiplier" 2
  let r := calculateKeltnerChannel data emaPeriod atrPeriod multiplier
  let upper := r.1
  let middle := r.2.1
  let lower := r.2.2
  let acc := (List.range data.length).foldl
    (fun (acc : List StrategySignal × Bool) (i : ℕ) =>
      let signals := acc.1
      let inPosition := acc.2
      if (upper.getD i none).isNone ∨ (lower.getD i none).isNone then
        (signals ++ [StrategySignal.HOLD], inPosition)
      else
        let bar := data.getD i default
        let prevClose : Option α := if i = 0 then none else some (data.getD (i - 1) default).close
        let prevUpper : Option α := if i = 0 then none else upper.getD (i - 1) none
        if olt (upper.getD i none) (some bar.close) && ole prevClose prevUpper &&
            !inPosition then
          (signals ++ [StrategySignal.BUY], true)
        else if olt (some bar.close) (middle.getD i none) && inPosition then
          (signals ++ [StrategySignal.SELL], false)
        else (signals ++ [StrategySignal.HOLD], inPosition))
    ([], false)
  ⟨acc.1, [("upper", upper), ("middle", middle), ("lower", lower)]⟩

/-- Supertrend strategy `calculate`. -/
def supertrendCalculate {α : Type} [LinearOrderedField α] [FloorRing α]
    (data : List (MarketData α)) (params : List (String × α)) : StrategyResult α :=
  let period := param params "period" 10
  let multiplier := param params "multiplier" 3
  let r := calculateSupertrend data period multiplier
  let supertrend := r.1
  let direction := r.2
  let signals := (List.range data.length).map (fun (i : ℕ) =>
    if (i : α) < period + 1 ∨ direction.getD i 0 = 0 then StrategySignal.HOLD
    else if direction.getD i 0 = 1 ∧ direction.getD (i - 1) 0 = -1 then StrategySignal.BUY
    else if direction.getD i 0 = -1 ∧ direction.getD (i - 1) 0 = 1 then StrategySignal.SELL
    else StrategySignal.HOLD)
  ⟨signals, [("supertrend", supertrend),
    ("direction", direction.map (fun d => some ((d : ℤ) : α)))]⟩

/-- Volatility Breakout (Larry Williams) strategy `calculate` (stateful). -/
def volatilityBreakoutCalculate {α : Type} [LinearOrderedField α] [FloorRing α]
    (data : List (MarketData α)) (params : List (String × α)) : StrategyResult α :=
  let atrPeriod := param params "atrPeriod" 14
  let multiplier := param params "multiplier" (1 / 2)
  let atr := calculateATR data atrPeriod
  let acc := (List.range data.length).foldl
    (fun (acc : List StrategySignal × List (Option α) × Bool × Option α) (i : ℕ) =>
      let signals := acc.1
      let breakoutLevels := acc.2.1
      let inPosition := acc.2.2.1
      let entryPrice := acc.2.2.2
      let atrPrev : Option α := if i = 0 then none else atr.getD (i - 1) none
      if (i : α) < atrPeriod ∨ atrPrev.isNone then
        (signals ++ [StrategySignal.HOLD], breakoutLevels ++ [none], inPosition, entryPrice)
      else
        let bar := data.getD i default
        let prevClose : Option α := if i = 0 then none else some (data.getD (i - 1) default).close
        let breakoutUp := oadd prevClose (omul (some multiplier) atrPrev)
        let breakoutDown := osub prevClose (omul (some multiplier) atrPrev)
        if olt breakoutUp (some bar.high) && !inPosition then
          (signals ++ [StrategySignal.BUY], breakoutLevels ++ [breakoutUp], true, breakoutUp)
        else if inPosition && olt (some bar.low) breakoutDown then
          (signals ++ [StrategySignal.SELL], breakoutLevels ++ [breakoutUp], false, entryPrice)
        else if inPosition &&
            olt (some bar.close) (osub entryPrice (omul (some 2) (atr.getD i none))) then
          (signals ++ [StrategySignal.SELL], breakoutLevels ++ [breakoutUp], false, entryPrice)
        else
          (signals ++ [StrategySignal.HOLD], breakoutLevels ++ [breakoutUp], inPosition,
            entryPrice))
    ([], [], false, some 0)
  ⟨acc.1, [("atr", atr), ("breakoutLevels", acc.2.1)]⟩

/-- Volume Breakout strategy `calculate` (stateful). -/
def volumeBreakoutCalculate {α : Type} [LinearOrderedField α] [FloorRing α]
    (data : List (MarketData α)) (params : List (String × α)) : StrategyResult α :=
  let breakoutPeriod := param params "breakoutPeriod" 20
  let volumePeriod := param params "volumePeriod" 20
  let volumeMultiplier := param params "volumeMultiplier" (3 / 2)
  let volumes : List (Option α) := data.map (fun d => some d.volume)
  let volumeMA := calculateSMA volumes volumePeriod
  let acc := (List.range data.length).foldl
    (fun (acc : List StrategySignal × List (Option α) × List (Option α) × Bool) (i : ℕ) =>
      let signals := acc.1
      let upperChannel := acc.2.1
      let lowerChannel := acc.2.2.1
      let inPosition := acc.2.2.2
      if (i : α) < max breakoutPeriod volumePeriod then
        (signals ++ [StrategySignal.HOLD], upperChannel ++ [none], lowerChannel ++ [none],
          inPosition)
      else
        let bar := data.getD i default
        let highs := (jsSlice data ((i : α) - breakoutPeriod) (i : α)).map (fun d => d.high)
        let lows := (jsSlice data ((i : α) - breakoutPeriod) (i : α)).map (fun d => d.low)
        let upper := jsMaxList highs
        let lower := jsMinList lows
        let highVolume := olt (omul (volumeMA.getD i none) (some volumeMultiplier))
          (some bar.volume)
        if jsGtMax bar.close upper && highVolume && !inPosition then
          (signals ++ [StrategySignal.BUY], upperChannel ++ [upper], lowerChannel ++ [lower],
            true)
        else if jsLtMin bar.close lower && inPosition then
          (signals ++ [StrategySignal.SELL], upperChannel ++ [upper], lowerChannel ++ [lower],
            false)
        else
          (signals ++ [StrategySignal.HOLD], upperChannel ++ [upper], lowerChannel ++ [lower],
            inPosition))
    ([], [], [], false)
  ⟨acc.1, [("upperChannel", acc.2.1), ("lowerChannel", acc.2.2.1),
    ("volumeMA", volumeMA)]⟩

/-- Trend Strength Filter strategy `calculate` (stateful, ATR trailing stop). -/
def trendStrengthCalculate {α : Type} [LinearOrderedField α] [FloorRing α]
    (data : List (MarketData α)) (params : List (String × α)) : StrategyResult α :=
  let trendPeriod := param params "trendPeriod" 200
  let adxPeriod := param params "adxPeriod" 14
  let adxThreshold := param params "adxThreshold" 20
  let atrStopMultiplier := param params "atrStopMultiplier" 2
  let closes : List (Option α) := data.map (fun d => some d.close)
  let trendEMA := calculateEMA closes trendPeriod
  let r := calculateADX data adxPeriod
  let adx := r.1
  let plusDI := r.2.1
  let minusDI := r.2.2
  let atr := calculateATR data adxPeriod
  let acc := (List.range data.length).foldl
    (fun (acc : List StrategySignal × Bool × Option α) (i : ℕ) =>
      let signals := acc.1
      let inPosition := acc.2.1
      let trailingStop := acc.2.2
      if (i : α) < trendPeriod ∨ (trendEMA.getD i none).isNone ∨ (adx.getD i none).isNone then
        (signals ++ [StrategySignal.HOLD], inPosition, trailingStop)
      else
        let bar := data.getD i default
        let aboveTrend := olt (trendEMA.getD i none) (some bar.close)
        let strongTrend := olt (some adxThreshold) (adx.getD i none)
        let bullishDI := olt (minusDI.getD i none) (plusDI.getD i none)
        if aboveTrend && strongTrend && bullishDI && !inPosition then
          (signals ++ [StrategySignal.BUY], true,
            osub (some bar.close) (omul (some atrStopMultiplier) (atr.getD i none)))
        else if inPosition then
          let newStop := osub (some bar.close) (omul (some atrStopMultiplier) (atr.getD i none))
          let trailingStop2 := omax trailingStop newStop
          if olt (some bar.close) trailingStop2 || !aboveTrend then
            (signals ++ [StrategySignal.SELL], false, trailingStop2)
          else (signals ++ [StrategySignal.HOLD], true, trailingStop2)
        else (signals ++ [StrategySignal.HOLD], inPosition, trailingStop))
    ([], false, some 0)
  ⟨acc.1, [("trendEMA", trendEMA), ("adx", adx), ("plusDI", plusDI),
    ("minusDI", minusDI)]⟩

/-- The `strategies` registry from `strategies.ts` (12 entries, in source
order). -/
def strategies {α : Type} [LinearOrderedField α] [FloorRing α] : List (Strategy α) :=
  [{ id := "hamilton", name := "Hamilton Diagram",
     description := "Uses demand/supply force analysis to identify market states and generate signals",
     category := StrategyCategory.hybrid,
     parameters := [⟨"threshold", "Threshold", 30, 10, 50, 5⟩],
     calculate := hamiltonCalculate },
   { id := "ma_crossover", name := "Moving Average Crossover",
     description := "Buy when fast EMA crosses above slow EMA, sell on cross below",
     category := StrategyCategory.trend,
     parameters := [⟨"fastPeriod", "Fast EMA Period", 10, 5, 30, 1⟩,
       ⟨"slowPeriod", "Slow EMA Period", 30, 15, 100, 5⟩],
     calculate := maCrossoverCalculate },
   { id := "macd", name := "MACD Crossover",
     description := "Buy when MACD crosses above signal line, sell when it crosses below",
     category := StrategyCategory.momentum,
     parameters := [⟨"fastPeriod", "Fast EMA", 12, 5, 20, 1⟩,
       ⟨"slowPeriod", "Slow EMA", 26, 15, 40, 1⟩,
       ⟨"signalPeriod", "Signal Period", 9, 5, 15, 1⟩],
     calculate := macdCalculate },
   { id := "adx_trend", name := "ADX Trend Following",
     description := "Trade in trend direction when ADX shows strong trend (>25)",
     category := StrategyCategory.trend,
     parameters := [⟨"period", "ADX Period", 14, 7, 28, 1⟩,
       ⟨"threshold", "ADX Threshold", 25, 15, 40, 5⟩],
     calculate := adxTrendCalculate },
   { id := "donchian_breakout", name := "Donchian Breakout",
     description := "Classic Turtle system: Buy on N-day high breakout, sell on N-day low",
     category := StrategyCategory.trend,
     parameters := [⟨"entryPeriod", "Entry Lookback", 20, 10, 55, 5⟩,
       ⟨"exitPeriod", "Exit Lookback", 10, 5, 30, 5⟩],
     calculate := donchianBreakoutCalculate },
   { id := "dual_momentum", name := "Dual Momentum",
     description := "Go long when absolute momentum positive AND relative to cash, else exit",
     category := StrategyCategory.trend,
     parameters := [⟨"lookback", "Lookback Period", 200, 60, 252, 20⟩,
       ⟨"cashReturn", "Risk-Free Rate (percent/yr)", 4, 0, 10, 1 / 2⟩],
     calculate := dualMomentumCalculate },
   { id := "tsmom", name := "Time Series Momentum",
     description := "Go long when N-period return is positive, exit when negative",
     category := StrategyCategory.trend,
     parameters := [⟨"lookback", "Lookback Period", 200, 20, 252, 20⟩],
     calculate := tsmomCalculate },
   { id := "keltner_breakout", name := "Keltner Channel Breakout",
     description := "Buy on breakout above upper Keltner band, sell below lower band",
     category := StrategyCategory.trend,
     parameters := [⟨"emaPeriod", "EMA Period", 20, 10, 50, 5⟩,
       ⟨"atrPeriod", "ATR Period", 14, 7, 21, 1⟩,
       ⟨"multiplier", "ATR Multiplier", 2, 1, 4, 1 / 2⟩],
     calculate := keltnerBreakoutCalculate },
   { id := "supertrend", name := "Supertrend",
     description := "ATR-based trend following with automatic support/resistance flipping",
     category := StrategyCategory.trend,
     parameters := [⟨"period", "ATR Period", 10, 5, 20, 1⟩,
       ⟨"multiplier", "Multiplier", 3, 1, 5, 1 / 2⟩],
     calculate := supertrendCalculate },
   { id := "volatility_breakout", name := "Volatility Breakout",
     description := "Enter when price moves N x ATR from open, capturing momentum days",
     category := StrategyCategory.momentum,
     parameters := [⟨"atrPeriod", "ATR Period", 14, 7, 21, 1⟩,
       ⟨"multiplier", "Breakout Multiplier", 1 / 2, 1 / 5, 3 / 2, 1 / 10⟩],
     calculate := volatilityBreakoutCalculate },
   { id := "volume_breakout", name := "Volume Breakout",
     description := "Donchian breakout confirmed by above-average volume",
     category := StrategyCategory.trend,
     parameters := [⟨"breakoutPeriod", "Breakout Period", 20, 10, 55, 5⟩,
       ⟨"volumePeriod", "Volume MA Period", 20, 10, 50, 5⟩,
       ⟨"volumeMultiplier", "Volume Multiplier", 3 / 2, 1, 3, 1 / 4⟩],
     calculate := volumeBreakoutCalculate },
   { id := "trend_strength", name := "Trend Strength Filter",
     description := "Long only when ADX strong AND price above 200 EMA, with ATR trailing stop",
     category := StrategyCategory.trend,
     parameters := [⟨"trendPeriod", "Trend EMA", 200, 100, 300, 20⟩,
       ⟨"adxPeriod", "ADX Period", 14, 7, 28, 1⟩,
       ⟨"adxThreshold", "ADX Threshold", 20, 15, 35, 5⟩,
       ⟨"atrStopMultiplier", "ATR Stop Multiplier", 2, 1, 4, 1 / 2⟩],
     calculate := trendStrengthCalculate }]

/-- `getStrategyById` from `strategies.ts`. -/
def getStrategyById {α : Type} [LinearOrderedField α] [FloorRing α]
    (id : String) : Option (Strategy α) :=
  (strategies (α := α)).find? (fun s => decide (s.id = id))

/-! `backtesting.ts`. -/

/-- The `type` union of `Trade` (`'LONG' | 'SHORT'`). -/
inductive TradeSide : Type
  | LONG
  | SHORT
  deriving DecidableEq

/-- The position state of the backtest loop (`'LONG' | 'SHORT' | 'FLAT'`). -/
inductive Position : Type
  | LONG
  | SHORT
  | FLAT
  deriving DecidableEq

/-- `Trade` from `backtesting.ts` (`type` is named `side`). -/
structure Trade (α : Type) where
  entryDate : ℕ
  entryPrice : α
  exitDate : ℕ
  exitPrice : α
  side : TradeSide
  returnPct : α
  holdingPeriod : ℕ
  deriving DecidableEq

/-- One point of the `equityCurve` of `backtesting.ts`. -/
structure EquityPoint (α : Type) where
  date : ℕ
  strategy : α
  buyAndHold : α
  drawdown : α
  deriving DecidableEq

/-- `BacktestResult` from `backtesting.ts`.  `profitFactor` is an `Option`:
`none` models the `Infinity` sentinel the source returns when there are
winning trades but no losing ones. -/
structure BacktestResult (α : Type) where
  strategyId : String
  strategyName : String
  totalReturn : α
  buyAndHoldReturn : α
  excessReturn : α
  annualizedReturn : α
  annualizedBuyAndHold : α
  maxDrawdown : α
  maxDrawdownBuyAndHold : α
  volatility : α
  sharpeRatio : α
  sortinoRatio : α
  calmarRatio : α
  totalTrades : ℕ
  winningTrades : ℕ
  losingTrades : ℕ
  winRate : α
  avgWin : α
  avgLoss : α
  profitFactor : Option α
  avgHoldingPeriod : α
  maxConsecutiveWins : ℕ
  maxConsecutiveLosses : ℕ
  equityCurve : List (EquityPoint α)
  trades : List (Trade α)
  signals : List StrategySignal
  startDate : ℕ
  endDate : ℕ
  tradingDays : ℕ

/-- `BacktestConfig` from `backtesting.ts` (a fully-populated configuration:
the TypeScript `Partial`-merge with `DEFAULT_CONFIG` happens before the logic
modelled here). -/
structure BacktestConfig (α : Type) where
  strategyId : String
  strategyParams : List (String × α)
  initialCapital : α
  allowShorts : Bool
  transactionCost : α

/-- The mutable state of the backtest loop of `runBacktest`. -/
structure BTState (α : Type) where
  capital : α
  position : Position
  entryPrice : α
  entryDate : ℕ
  entryIndex : ℕ
  trades : List (Trade α)
  equityCurve : List (EquityPoint α)
  peakEquity : α
  deriving DecidableEq

/-- The initial state of the loop: pre-invested LONG at bar 0's close, with
the initial entry transaction cost already applied. -/
def btInit {α : Type} [LinearOrderedField α] (initialCapital transactionCost : α)
    (data : List (MarketData α)) : BTState α :=
  { capital := initialCapital * (1 - transactionCost / 100),
    position := Position.LONG,
    entryPrice := (data.getD 0 default).close,
    entryDate := (data.getD 0 default).date,
    entryIndex := 0,
    trades := [],
    equityCurve := [],
    peakEquity := initialCapital }

/-- The per-bar body of the backtest loop: the position-transition block
followed by the equity-curve push. -/
def btStep {α : Type} [LinearOrderedField α]
    (transactionCost : α) (allowShorts : Bool) (buyAndHoldShares : α)
    (i : ℕ) (bar : MarketData α) (signal : StrategySignal) (st : BTState α) :
    BTState α :=
  let price := bar.close
  let st1 :=
    match st.position with
    | Position.FLAT =>
      if signal = StrategySignal.BUY then
        { st with
          position := Position.LONG
          entryPrice := price
          entryDate := bar.date
          entryIndex := i
          capital := st.capital * (1 - transactionCost / 100) }
      else if allowShorts ∧ signal = StrategySignal.SELL then
        { st with
          position := Position.SHORT
          entryPrice := price
          entryDate := bar.date
          entryIndex := i
          capital := st.capital * (1 - transactionCost / 100) }
      else st
    | Position.LONG =>
      if signal = StrategySignal.SELL then
        let returnPct := (price - st.entryPrice) / st.entryPrice * 100
        let capital1 := st.capital * (1 + returnPct / 100) * (1 - transactionCost / 100)
        let trades1 : List (Trade α) := st.trades ++ [(⟨st.entryDate, st.entryPrice,
          bar.date, price, TradeSide.LONG, returnPct, i - st.entryIndex⟩ : Trade α)]
        if allowShorts then
          { st with
            capital := capital1 * (1 - transactionCost / 100)
            position := Position.SHORT
            entryPrice := price
            entryDate := bar.date
            entryIndex := i
            trades := trades1 }
        else
          { st with
            capital := capital1
            position := Position.FLAT
            trades := trades1 }
      else st
    | Position.SHORT =>
      if signal = StrategySignal.BUY then
        let returnPct := (st.entryPrice - price) / st.entryPrice * 100
        let capital1 := st.capital * (1 + returnPct / 100) * (1 - transactionCost / 100)
        let trades1 : List (Trade α) := st.trades ++ [(⟨st.entryDate, st.entryPrice,
          bar.date, price, TradeSide.SHORT, returnPct, i - st.entryIndex⟩ : Trade α)]
        { st with
          capital := capital1 * (1 - transactionCost / 100)
          position := Position.LONG
          entryPrice := price
          entryDate := bar.date
          entryIndex := i
          trades := trades1 }
      else st
  let currentEquity : α :=
    match st1.position with
    | Position.LONG =>
      st1.capital * (1 + (price - st1.entryPrice) / st1.entryPrice * 100 / 100)
    | Position.SHORT =>
      st1.capital * (1 + (st1.entryPrice - price) / st1.entryPrice * 100 / 100)
    | Position.FLAT => st1.capital
  let peakEquity : α := max st1.peakEquity currentEquity
  let drawdown := (peakEquity - currentEquity) / peakEquity * 100
  let buyAndHoldValue := buyAndHoldShares * price
  { st1 with
    peakEquity := peakEquity
    equityCurve := st1.equityCurve ++
      [(⟨bar.date, currentEquity, buyAndHoldValue, drawdown⟩ : EquityPoint α)] }

/-- The backtest loop over all bars (the signal at each index, when missing,
behaves exactly like HOLD, as the JavaScript `undefined` matches no branch). -/
def btLoop {α : Type} [LinearOrderedField α]
    (transactionCost : α) (allowShorts : Bool) (buyAndHoldShares : α)
    (data : List (MarketData α)) (signals : List StrategySignal) (st : BTState α) :
    BTState α :=
  data.enum.foldl (fun st p =>
    btStep transactionCost allowShorts buyAndHoldShares p.1 p.2
      (signals.getD p.1 StrategySignal.HOLD) st) st

/-- The forced end-of-period close of `runBacktest` (lines after the loop):
realizes the open position's return into capital and records a trade, with no
transaction cost. -/
def btCloseEnd {α : Type} [LinearOrderedField α]
    (data : List (MarketData α)) (st : BTState α) : BTState α :=
  let lastPrice := (data.getD (data.length - 1) default).close
  let lastDate := (data.getD (data.length - 1) default).date
  match st.position with
  | Position.LONG =>
    let returnPct := (lastPrice - st.entryPrice) / st.entryPrice * 100
    { st with
      capital := st.capital * (1 + returnPct / 100)
      trades := st.trades ++ [(⟨st.entryDate, st.entryPrice, lastDate, lastPrice,
        TradeSide.LONG, returnPct, data.length - 1 - st.entryIndex⟩ : Trade α)] }
  | Position.SHORT =>
    let returnPct := (st.entryPrice - lastPrice) / st.entryPrice * 100
    { st with
      capital := st.capital * (1 + returnPct / 100)
      trades := st.trades ++ [(⟨st.entryDate, st.entryPrice, lastDate, lastPrice,
        TradeSide.SHORT, returnPct, data.length - 1 - st.entryIndex⟩ : Trade α)] }
  | Position.FLAT => st

/-- The metric block of `runBacktest` (everything after the forced close). -/
def btBuildResult {α : Type} [LinearOrderedField α] (M : JsMath α)
    (strategyId strategyName : String) (initialCapital : α)
    (data : List (MarketData α)) (signals : List StrategySignal) (st : BTState α) :
    BacktestResult α :=
  let equityCurve := st.equityCurve
  let trades := st.trades
  -- `equityCurve[equityCurve.length - 1]?.strategy || capital`: JavaScript `||`
  -- falls back to `capital` also when the last strategy equity is exactly 0.
  let finalEquity :=
    match equityCurve.getLast? with
    | some p => if p.strategy = 0 then st.capital else p.strategy
    | none => st.capital
  let buyAndHoldShares := initialCapital / (data.getD 0 default).close
  let buyAndHoldFinal := buyAndHoldShares * (data.getD (data.length - 1) default).close
  let totalReturn := (finalEquity - initialCapital) / initialCapital * 100
  let buyAndHoldReturn := (buyAndHoldFinal - initialCapital) / initialCapital * 100
  let tradingDays := data.length
  let years := (tradingDays : α) / 252
  let annualizedReturn :=
    if 0 < years then (M.pow (finalEquity / initialCapital) (1 / years) - 1) * 100 else 0
  let annualizedBuyAndHold :=
    if 0 < years then (M.pow (buyAndHoldFinal / initialCapital) (1 / years) - 1) * 100 else 0
  let maxDrawdown := equityCurve.foldl (fun m p => max m p.drawdown) 0
  let maxDrawdownBuyAndHold :=
    (equityCurve.foldl (fun (acc : α × α) p =>
      let peakBH := max acc.2 p.buyAndHold
      (max acc.1 ((peakBH - p.buyAndHold) / peakBH * 100), peakBH))
      (0, initialCapital)).1
  let dailyReturns : List α :=
    (equityCurve.zip equityCurve.tail).map (fun q =>
      (q.2.strategy - q.1.strategy) / q.1.strategy)
  let avgDailyReturn :=
    if dailyReturns.length = 0 then 0 else dailyReturns.sum / (dailyReturns.length : α)
  let variance :=
    if dailyReturns.length = 0 then 0
    else (dailyReturns.map (fun r => (r - avgDailyReturn) ^ 2)).sum / (dailyReturns.length : α)
  let volatility := M.sqrt variance * M.sqrt 252 * 100
  let sharpeRatio := if 0 < volatility then annualizedReturn / volatility else 0
  let negativeReturns := dailyReturns.filter (fun r => decide (r < 0))
  let downsideVariance :=
    if negativeReturns.length = 0 then 0
    else (negativeReturns.map (fun r => r ^ 2)).sum / (negativeReturns.length : α)
  let downsideDeviation := M.sqrt downsideVariance * M.sqrt 252 * 100
  let sortinoRatio := if 0 < downsideDeviation then annualizedReturn / downsideDeviation else 0
  let calmarRatio := if 0 < maxDrawdown then annualizedReturn / maxDrawdown else 0
  let winningTrades := trades.filter (fun t => decide (0 < t.returnPct))
  let losingTrades := trades.filter (fun t => decide (t.returnPct ≤ 0))
  let totalWins := (winningTrades.map (fun t => t.returnPct)).sum
  let totalLosses := |(losingTrades.map (fun t => t.returnPct)).sum|
  let avgWin := if winningTrades.length = 0 then 0 else totalWins / (winningTrades.length : α)
  let avgLoss := if losingTrades.length = 0 then 0 else totalLosses / (losingTrades.length : α)
  let profitFactor : Option α :=
    if 0 < totalLosses then some (totalWins / totalLosses)
    else if 0 < totalWins then none
    else some 0
  let avgHoldingPeriod :=
    if trades.length = 0 then 0
    else (trades.map (fun t => (t.holdingPeriod : α))).sum / (trades.length : α)
  let consec :=
    trades.foldl (fun (acc : ℕ × ℕ × ℕ × ℕ) t =>
      if 0 < t.returnPct then
        (max acc.1 (acc.2.2.1 + 1), acc.2.1, acc.2.2.1 + 1, 0)
      else
        (acc.1, max acc.2.1 (acc.2.2.2 + 1), 0, acc.2.2.2 + 1))
      (0, 0, 0, 0)
  { strategyId := strategyId,
    strategyName := strategyName,
    totalReturn := totalReturn,
    buyAndHoldReturn := buyAndHoldReturn,
    excessReturn := totalReturn - buyAndHoldReturn,
    annualizedReturn := annualizedReturn,
    annualizedBuyAndHold := annualizedBuyAndHold,
    maxDrawdown := maxDrawdown,
    maxDrawdownBuyAndHold := maxDrawdownBuyAndHold,
    volatility := volatility,
    sharpeRatio := sharpeRatio,
    sortinoRatio := sortinoRatio,
    calmarRatio := calmarRatio,
    totalTrades := trades.length,
    winningTrades := winningTrades.length,
    losingTrades := losingTrades.length,
    winRate := if trades.length = 0 then 0
      else (winningTrades.length : α) / (trades.length : α) * 100,
    avgWin := avgWin,
    avgLoss := avgLoss,
    profitFactor := profitFactor,
    avgHoldingPeriod := avgHoldingPeriod,
    maxConsecutiveWins := consec.1,
    maxConsecutiveLosses := consec.2.1,
    equityCurve := equityCurve,
    trades := trades,
    signals := signals,
    startDate := (data.getD 0 default).date,
    endDate := (data.getD (data.length - 1) default).date,
    tradingDays := tradingDays }

/-- The core of `runBacktest` once the per-bar signals are known: initial
pre-invested LONG state, the per-bar loop, the forced end-of-period close, and
the metric block. -/
def runBacktestSignals {α : Type} [LinearOrderedField α] (M : JsMath α)
    (strategyId strategyName : String) (data : List (MarketData α))
    (signals : List StrategySignal) (cfg : BacktestConfig α) : BacktestResult α :=
  let buyAndHoldShares := cfg.initialCapital / (data.getD 0 default).close
  let st0 := btInit cfg.initialCapital cfg.transactionCost data
  let st1 := btLoop cfg.transactionCost cfg.allowShorts buyAndHoldShares data signals st0
  let st2 := btCloseEnd data st1
  btBuildResult M strategyId strategyName cfg.initialCapital data signals st2

/-- `createEmptyResult` from `backtesting.ts`: the explicit zeroed result for
insufficient data or an unknown strategy id. -/
def createEmptyResult {α : Type} [LinearOrderedField α] [FloorRing α]
    (strategyId : String) : BacktestResult α :=
  { strategyId := strategyId,
    strategyName := ((getStrategyById (α := α) strategyId).map (fun s => s.name)).getD "Unknown",
    totalReturn := 0, buyAndHoldReturn := 0, excessReturn := 0,
    annualizedReturn := 0, annualizedBuyAndHold := 0,
    maxDrawdown := 0, maxDrawdownBuyAndHold := 0,
    volatility := 0, sharpeRatio := 0, sortinoRatio := 0, calmarRatio := 0,
    totalTrades := 0, winningTrades := 0, losingTrades := 0,
    winRate := 0, avgWin := 0, avgLoss := 0, profitFactor := some 0,
    avgHoldingPeriod := 0, maxConsecutiveWins := 0, maxConsecutiveLosses := 0,
    equityCurve := [], trades := [], signals := [],
    startDate := 0, endDate := 0, tradingDays := 0 }

/-- `runBacktest` from `backtesting.ts`: the `< 2`-bars and unknown-strategy
sentinel returns, then signal generation and the core loop. -/
def runBacktest {α : Type} [LinearOrderedField α] [FloorRing α] (M : JsMath α)
    (data : List (MarketData α)) (cfg : BacktestConfig α) : BacktestResult α :=
  if data.length < 2 then createEmptyResult cfg.strategyId
  else
    match getStrategyById (α := α) cfg.strategyId with
    | none => createEmptyResult cfg.strategyId
    | some strategy =>
      let signals := (strategy.calculate data cfg.strategyParams).signals
      runBacktestSignals M cfg.strategyId strategy.name data signals cfg

/-! `optimization.ts` (the walk-forward optimizer). -/

/-- `OptimizationMetric` from `optimization.ts`. -/
inductive OptimizationMetric : Type
  | sharpe
  | sortino
  | calmar
  | totalReturn
  | profitFactor
  deriving DecidableEq

/-- `OptimizationConfig` from `optimization.ts`; `parameterRanges` is the
per-parameter custom `{min, max, step}` table, empty when absent. -/
structure OptimizationConfig (α : Type) where
  strategyId : String
  numWindows : ℕ
  trainRatio : α
  optimizationMetric : OptimizationMetric
  initialCapital : α
  allowShorts : Bool
  transactionCost : α
  parameterRanges : List (String × α × α × α)

/-- `getMetricValue` from `optimization.ts`: `profitFactor`'s `Infinity`
sentinel (`none`) is treated as 100 for comparison. -/
def getMetricValue {α : Type} [LinearOrderedField α]
    (result : BacktestResult α) : OptimizationMetric → α
  | OptimizationMetric.sharpe => result.sharpeRatio
  | OptimizationMetric.sortino => result.sortinoRatio
  | OptimizationMetric.calmar => result.calmarRatio
  | OptimizationMetric.totalReturn => result.totalReturn
  | OptimizationMetric.profitFactor =>
    match result.profitFactor with
    | none => 100
    | some v => v

/-- The `for (v = min; v <= max; v += step)` value list of
`generateParameterCombinations` (exact arithmetic).  A non-positive step would
never terminate in the source; every declared range has a positive step, so
that branch is modelled as the empty list. -/
def paramValues {α : Type} [LinearOrderedField α] [FloorRing α]
    (lo hi step : α) : List α :=
  if 0 < step ∧ lo ≤ hi then
    (List.range (⌊(hi - lo) / step⌋.toNat + 1)).map (fun (k : ℕ) => lo + (k : α) * step)
  else []

/-- The recursive cartesian product of `generateParameterCombinations`: the
first parameter varies slowest, and each combination lists the parameters in
declaration order (the JavaScript object insertion order). -/
def cartesianCombos {α : Type} : List (String × List α) → List (List (String × α))
  | [] => [[]]
  | (id, values) :: rest =>
    values.flatMap (fun v => (cartesianCombos rest).map (fun c => (id, v) :: c))

/-- `generateParameterCombinations` from `optimization.ts`. -/
def generateParameterCombinations {α : Type} [LinearOrderedField α] [FloorRing α]
    (strategy : Strategy α) (customRanges : List (String × α × α × α)) :
    List (List (String × α)) :=
  if strategy.parameters.isEmpty then [[]]
  else
    let paramRanges : List (String × List α) :=
      strategy.parameters.map (fun p =>
        match customRanges.find? (fun c => decide (c.1 = p.id)) with
        | some c => (p.id, paramValues c.2.1 c.2.2.1 c.2.2.2)
        | none => (p.id, paramValues p.min p.max p.step))
    cartesianCombos paramRanges

/-- A walk-forward window of `createWindows` (train/test slices plus the raw
index bounds). -/
structure WFWindow (α : Type) where
  train : List (MarketData α)
  test : List (MarketData α)
  trainStart : ℤ
  trainEnd : ℤ
  testStart : ℤ
  testEnd : ℤ

/-- `createWindows` from `optimization.ts`: anchored expanding-train windows;
`trainEnd = ⌊(w+1)·total·trainRatio/numWindows⌋ + ⌊total·(1−trainRatio)⌋`,
`testEnd = min(testStart + ⌊total/numWindows⌋, total)`; a window is kept only
when its test slice is non-degenerate and its train slice has more than 20
bars. -/
def createWindows {α : Type} [LinearOrderedField α] [FloorRing α]
    (data : List (MarketData α)) (numWindows : ℕ) (trainRatio : α) :
    List (WFWindow α) :=
  let totalPeriods := data.length
  let testSize : ℤ := ⌊(totalPeriods : α) / (numWindows : α)⌋
  (List.range numWindows).foldl (fun windows (w : ℕ) =>
    let trainEnd : ℤ :=
      ⌊((w : α) + 1) * (totalPeriods : α) * trainRatio / (numWindows : α)⌋ +
        ⌊(totalPeriods : α) * (1 - trainRatio)⌋
    let trainStart : ℤ := 0
    let testStart : ℤ := trainEnd
    let testEnd : ℤ := min (testStart + testSize) (totalPeriods : ℤ)
    if testStart < testEnd ∧ trainStart + 20 < trainEnd then
      windows ++ [⟨jsSliceI data trainStart trainEnd, jsSliceI data testStart testEnd,
        trainStart, trainEnd, testStart, testEnd⟩]
    else windows) []

/-- `optimizeWindow` from `optimization.ts`: grid search over the training
slice; the `-Infinity` seed of `bestMetric` is modelled as `none`, so the
first combination always wins against it. -/
def optimizeWindow {α : Type} [LinearOrderedField α] [FloorRing α] (M : JsMath α)
    (trainData : List (MarketData α)) (strategy : Strategy α)
    (combinations : List (List (String × α))) (cfg : OptimizationConfig α) :
    List (String × α) × Option α :=
  combinations.foldl (fun acc params =>
    let result := runBacktest M trainData
      ⟨strategy.id, params, cfg.initialCapital, cfg.allowShorts, cfg.transactionCost⟩
    let metric := getMetricValue result cfg.optimizationMetric
    match acc.2 with
    | none => (params, some metric)
    | some best => if best < metric then (params, some metric) else acc)
    (combinations.headD [], none)

/-- The per-value counting step
`paramCounts[paramId][value] = (paramCounts[paramId][value] || 0) + 1`, on an
insertion-ordered association list modelling the JavaScript object. -/
def bumpCount {α : Type} [DecidableEq α] (counts : List (α × ℕ)) (value : α) :
    List (α × ℕ) :=
  if counts.any (fun c => decide (c.1 = value)) then
    counts.map (fun c => if c.1 = value then (c.1, c.2 + 1) else c)
  else counts ++ [(value, 1)]

/-- The per-window parameter-selection counting loop of
`runWalkForwardOptimization` (over `Object.entries(bestParams)`). -/
def bumpParamCounts {α : Type} [DecidableEq α]
    (paramCounts : List (String × List (α × ℕ))) (bestParams : List (String × α)) :
    List (String × List (α × ℕ)) :=
  bestParams.foldl (fun pc p =>
    if pc.any (fun q => decide (q.1 = p.1)) then
      pc.map (fun q => if q.1 = p.1 then (q.1, bumpCount q.2 p.2) else q)
    else pc ++ [(p.1, bumpCount [] p.2)]) paramCounts

/-- Whether a numeric object key is a canonical array index (ECMAScript: the
string of a non-negative integer below 2^32 − 1).  Such keys are enumerated
first, in ascending numeric order, by `Object.entries`. -/
def isArrayIndexKey {α : Type} [LinearOrderedField α] [FloorRing α] (q : α) : Bool :=
  decide (0 ≤ q) && decide (((⌊q⌋ : ℤ) : α) = q) && decide (q < 4294967295)

/-- `Object.entries` on a number-keyed object: array-index keys first in
ascending numeric order, then the remaining keys in insertion order. -/
def jsEntries {α : Type} [LinearOrderedField α] [FloorRing α]
    (counts : List (α × ℕ)) : List (α × ℕ) :=
  let part := counts.partition (fun c => isArrayIndexKey c.1)
  (part.1.insertionSort (fun a b => a.1 ≤ b.1)) ++ part.2

/-- The mode-selection loop of `runWalkForwardOptimization` (lines computing
`recommendedParams`): walk `Object.entries(counts)` keeping the first entry
whose count strictly exceeds the running maximum; `bestValue` starts at 0.
`parseFloat` of the numeric key is the identity here. -/
def recommendedValue {α : Type} [LinearOrderedField α] [FloorRing α]
    (counts : List (α × ℕ)) : α :=
  ((jsEntries counts).foldl (fun (acc : ℕ × α) c =>
    if acc.1 < c.2 then (c.2, c.1) else acc) (0, 0)).2

/-- The full `recommendedParams` computation over the per-parameter counts
(the outer `Object.entries(paramCounts)` is string-keyed, hence in insertion
order). -/
def recommendedParamsOf {α : Type} [LinearOrderedField α] [FloorRing α]
    (paramCounts : List (String × List (α × ℕ))) : List (String × α) :=
  paramCounts.map (fun pc => (pc.1, recommendedValue pc.2))

/-- `WindowResult` from `optimization.ts` (`trainStart`/`trainEnd`/`testStart`/
`testEnd` hold the window's boundary dates; `trainMetric`'s `none` models the
`-Infinity` seed surviving an empty grid). -/
structure WindowResult (α : Type) where
  windowIndex : ℕ
  trainStartDate : ℕ
  trainEndDate : ℕ
  testStartDate : ℕ
  testEndDate : ℕ
  trainPeriods : ℕ
  testPeriods : ℕ
  bestParams : List (String × α)
  trainMetric : Option α
  testMetric : α
  testReturn : α
  testSharpe : α
  testMaxDrawdown : α
  testTrades : ℕ
  buyHoldReturn : α
  beatsBuyHold : Bool

/-- `OptimizationResult` from `optimization.ts`.  `overfitRatio`'s `none`
models a non-finite value (the `Infinity` branch when the average test metric
is 0, or a ratio built from a non-finite average train metric). -/
structure OptimizationResult (α : Type) where
  strategyId : String
  strategyName : String
  metric : OptimizationMetric
  avgTestReturn : α
  avgTestSharpe : α
  avgTestDrawdown : α
  totalTestTrades : ℕ
  avgTrainMetric : Option α
  avgTestMetric : α
  overfitRatio : Option α
  recommendedParams : List (String × α)
  windowResults : List (WindowResult α)
  combinedEquityCurve : List (ℕ × α × ℕ)
  isStatisticallySignificant : Bool
  consistencyScore : α
  avgBuyHoldReturn : α
  totalBuyHoldReturn : α
  totalStrategyReturn : α
  winRateVsBuyHold : α
  excessReturn : α
  recommendable : Bool

/-- The accumulator of the per-window loop of `runWalkForwardOptimization`:
(windowResults, paramCounts, combinedEquityCurve, runningCapital). -/
abbrev WfoAcc (α : Type) : Type :=
  List (WindowResult α) × List (String × List (α × ℕ)) × List (ℕ × α × ℕ) × α

/-- The body of the per-window loop of `runWalkForwardOptimization`: grid
search on the training slice, out-of-sample test with the running capital,
buy-and-hold comparison, parameter-selection counting, equity-curve
concatenation and capital carry-forward. -/
def wfoStep {α : Type} [LinearOrderedField α] [FloorRing α] (M : JsMath α)
    (data : List (MarketData α)) (cfg : OptimizationConfig α) (strategy : Strategy α)
    (combinations : List (List (String × α))) (acc : WfoAcc α) (wp : ℕ × WFWindow α) :
    WfoAcc α :=
  let w := wp.1
  let win := wp.2
  let windowResults := acc.1
  let paramCounts := acc.2.1
  let combinedEquityCurve := acc.2.2.1
  let runningCapital := acc.2.2.2
  let opt := optimizeWindow M win.train strategy combinations cfg
  let bestParams := opt.1
  let bestMetric := opt.2
  let testResult := runBacktest M win.test
    ⟨strategy.id, bestParams, runningCapital, cfg.allowShorts, cfg.transactionCost⟩
  let testMetric := getMetricValue testResult cfg.optimizationMetric
  let testStartPrice := (win.test.getD 0 default).close
  let testEndPrice := (win.test.getD (win.test.length - 1) default).close
  let buyHoldReturn := (testEndPrice - testStartPrice) / testStartPrice * 100
  let beatsBuyHold := decide (buyHoldReturn < testResult.totalReturn)
  let paramCounts2 := bumpParamCounts paramCounts bestParams
  let windowEquity := testResult.equityCurve.map (fun p => (p.date, p.strategy, w))
  let runningCapital2 :=
    match testResult.equityCurve.getLast? with
    | some p => p.strategy
    | none => runningCapital
  let wr : WindowResult α :=
    { windowIndex := w
      trainStartDate := (data.getD win.trainStart.toNat default).date
      trainEndDate := (data.getD (win.trainEnd - 1).toNat default).date
      testStartDate := (data.getD win.testStart.toNat default).date
      testEndDate :=
        (data.getD (min (win.testEnd - 1) ((data.length : ℤ) - 1)).toNat default).date
      trainPeriods := win.train.length
      testPeriods := win.test.length
      bestParams := bestParams
      trainMetric := bestMetric
      testMetric := testMetric
      testReturn := testResult.totalReturn
      testSharpe := testResult.sharpeRatio
      testMaxDrawdown := testResult.maxDrawdown
      testTrades := testResult.totalTrades
      buyHoldReturn := buyHoldReturn
      beatsBuyHold := beatsBuyHold }
  (windowResults ++ [wr], paramCounts2, combinedEquityCurve ++ windowEquity,
    runningCapital2)

/-- `runWalkForwardOptimization` from `optimization.ts`: null (`none`) for an
unknown strategy or fewer than 200 bars; otherwise anchored windows, per-window
grid search, out-of-sample tests with capital carried forward, and the
aggregate metrics.  Averages over an empty window list follow the exact-field
convention x/0 = 0. -/
def runWalkForwardOptimization {α : Type} [LinearOrderedField α] [FloorRing α]
    (M : JsMath α) (data : List (MarketData α)) (cfg : OptimizationConfig α) :
    Option (OptimizationResult α) :=
  match (strategies (α := α)).find? (fun s => decide (s.id = cfg.strategyId)) with
  | none => none
  | some strategy =>
    if data.length < 200 then none
    else
      let windows := createWindows data cfg.numWindows cfg.trainRatio
      let combinations := generateParameterCombinations strategy cfg.parameterRanges
      let loopOut : WfoAcc α :=
        windows.enum.foldl (wfoStep M data cfg strategy combinations)
          ([], [], [], cfg.initialCapital)
      let windowResults := loopOut.1
      let paramCounts := loopOut.2.1
      let combinedEquityCurve := loopOut.2.2.1
      let n : α := (windowResults.length : α)
      let avgTestReturn := (windowResults.map (fun w => w.testReturn)).sum / n
      let avgTestSharpe := (windowResults.map (fun w => w.testSharpe)).sum / n
      let avgTestDrawdown := (windowResults.map (fun w => w.testMaxDrawdown)).sum / n
      let totalTestTrades := (windowResults.map (fun w => w.testTrades)).sum
      let avgTrainMetric : Option α :=
        if windowResults.all (fun w => w.trainMetric.isSome) then
          some ((windowResults.map (fun w => w.trainMetric.getD 0)).sum / n)
        else none
      let avgTestMetric := (windowResults.map (fun w => w.testMetric)).sum / n
      let overfitRatio : Option α :=
        if avgTestMetric ≠ 0 then avgTrainMetric.map (fun m => m / avgTestMetric)
        else none
      let recommendedParams := recommendedParamsOf paramCounts
      let positiveWindows := (windowResults.filter (fun w => decide (0 < w.testReturn))).length
      let consistencyScore := (positiveWindows : α) / n * 100
      let isStatisticallySignificant :=
        decide (60 ≤ consistencyScore) && decide (0 < avgTestReturn)
      let avgBuyHoldReturn := (windowResults.map (fun w => w.buyHoldReturn)).sum / n
      let windowsBeatingBH := (windowResults.filter (fun w => w.beatsBuyHold)).length
      let winRateVsBuyHold := (windowsBeatingBH : α) / n * 100
      let totalStrategyReturn : α :=
        windowResults.foldl (fun acc w => acc * (1 + w.testReturn / 100)) 1
      let totalBuyHoldReturn : α :=
        windowResults.foldl (fun acc w => acc * (1 + w.buyHoldReturn / 100)) 1
      let totalStrategyReturnPct := (totalStrategyReturn - 1) * 100
      let totalBuyHoldReturnPct := (totalBuyHoldReturn - 1) * 100
      let excessReturn := totalStrategyReturnPct - totalBuyHoldReturnPct
      let recommendable :=
        decide (50 ≤ winRateVsBuyHold) && decide (0 < excessReturn) &&
          isStatisticallySignificant
      some
        { strategyId := strategy.id
          strategyName := strategy.name
          metric := cfg.optimizationMetric
          avgTestReturn := avgTestReturn
          avgTestSharpe := avgTestSharpe
          avgTestDrawdown := avgTestDrawdown
          totalTestTrades := totalTestTrades
          avgTrainMetric := avgTrainMetric
          avgTestMetric := avgTestMetric
          overfitRatio := overfitRatio
          recommendedParams := recommendedParams
          windowResults := windowResults
          combinedEquityCurve := combinedEquityCurve
          isStatisticallySignificant := isStatisticallySignificant
          consistencyScore := consistencyScore
          avgBuyHoldReturn := avgBuyHoldReturn
          totalBuyHoldReturn := totalBuyHoldReturnPct
          totalStrategyReturn := totalStrategyReturnPct
          winRateVsBuyHold := winRateVsBuyHold
          excessReturn := excessReturn
          recommendable := recommendable }

/-! C4: window-partition correctness at 250 bars, 5 windows, trainRatio 0.7. -/

/-- A 250-bar probe series (constant price 1). -/
def windowProbeBars : List (MarketData ℚ) :=
  (List.range 250).map (fun i =>
    { date := i, openPrice := 1, high := 1, low := 1, close := 1, volume := 1,
      demand := 0, supply := 0 })

/-- C4: for 250 bars, 5 windows and trainRatio 0.7, `createWindows` produces
exactly the four windows with `trainStart = 0`,
`trainEnd = ⌊(w+1)·250·0.7/5⌋ + ⌊250·0.3⌋ = 35(w+1) + 75`,
`testStart = trainEnd` and `testEnd = min(testStart + ⌊250/5⌋, 250)`;
window w = 4 (test length 0) is skipped, every kept window has train length
> 20 and test length > 0, the ranges are forward-adjacent (test starts where
train ends) and never exceed the 250-bar bounds. -/
theorem createWindows_partition_250 :
    ((createWindows windowProbeBars 5 (7 / 10)).map (fun w =>
        (w.trainStart, w.trainEnd, w.testStart, w.testEnd)) =
      [(0, 110, 110, 160), (0, 145, 145, 195), (0, 180, 180, 230),
        (0, 215, 215, 250)]) ∧
      ((createWindows windowProbeBars 5 (7 / 10)).length = 4 ∧
        ([((0 : ℤ), (110 : ℤ), (110 : ℤ), (160 : ℤ)), (0, 145, 145, 195),
            (0, 180, 180, 230), (0, 215, 215, 250)].all (fun q =>
          decide (q.1 = 0) && decide (q.2.2.1 = q.2.1) &&
            decide (20 < q.2.1) && decide (q.2.2.2 ≤ q.2.2.1 + 50) &&
            decide (q.2.2.1 < q.2.2.2) && decide (q.2.2.2 ≤ 250)) = true)) := by
  have hlen : windowProbeBars.length = 250 := by
    simp [windowProbeBars]
  have heval : (createWindows windowProbeBars 5 (7 / 10)).map (fun w =>
      (w.trainStart, w.trainEnd, w.testStart, w.testEnd)) =
      [(0, 110, 110, 160), (0, 145, 145, 195), (0, 180, 180, 230),
        (0, 215, 215, 250)] := by
    unfold createWindows
    rw [hlen]
    norm_num [List.range_succ]
  refine ⟨heval, ?_, by decide⟩
  have := congrArg List.length heval
  simpa using this

/-! C5: insufficient data and unknown strategies are sentinel results, never
exceptions. -/

/-- C5: `runBacktest` returns the explicit zeroed `createEmptyResult` whenever
fewer than 2 bars are supplied or the strategy id is not in the registry (and
that empty result has all-zero metrics and empty curves/trades/signals), and
`runWalkForwardOptimization` returns `none` (null) whenever fewer than 200
bars are supplied. -/
theorem insufficientData_sentinels {α : Type} [LinearOrderedField α] [FloorRing α]
    (M : JsMath α) :
    (∀ (data : List (MarketData α)) (cfg : BacktestConfig α), data.length < 2 →
        runBacktest M data cfg = createEmptyResult cfg.strategyId) ∧
      (∀ (data : List (MarketData α)) (cfg : BacktestConfig α),
        getStrategyById (α := α) cfg.strategyId = none →
          runBacktest M data cfg = createEmptyResult cfg.strategyId) ∧
      (∀ (data : List (MarketData α)) (cfg : OptimizationConfig α), data.length < 200 →
        runWalkForwardOptimization M data cfg = none) ∧
      (∀ id : String,
        (createEmptyResult (α := α) id).totalReturn = 0 ∧
        (createEmptyResult (α := α) id).sharpeRatio = 0 ∧
        (createEmptyResult (α := α) id).maxDrawdown = 0 ∧
        (createEmptyResult (α := α) id).profitFactor = some 0 ∧
        (createEmptyResult (α := α) id).totalTrades = 0 ∧
        (createEmptyResult (α := α) id).equityCurve = [] ∧
        (createEmptyResult (α := α) id).trades = [] ∧
        (createEmptyResult (α := α) id).signals = []) := by
  refine ⟨?_, ?_, ?_, ?_⟩
  · intro data cfg h
    unfold runBacktest
    rw [if_pos h]
  · intro data cfg h
    unfold runBacktest
    split_ifs with h2
    · rfl
    · rw [h]
  · intro data cfg h
    unfold runWalkForwardOptimization
    cases hfind : (strategies (α := α)).find? (fun s => decide (s.id = cfg.strategyId)) with
    | none => rfl
    | some strategy => simp only [if_pos h]
  · intro id
    exact ⟨rfl, rfl, rfl, rfl, rfl, rfl, rfl, rfl⟩

/-- A 1-bar probe series (too short for any backtest). -/
def oneBarProbe : List (MarketData ℚ) :=
  [{ date := 0, openPrice := 1, high := 1, low := 1, close := 1, volume := 1,
     demand := 0, supply := 0 }]

/-- Witness for C5 over `ℚ`: a 1-bar series (backtest sentinel), an unknown
strategy id on the 250-bar probe, and a 250-bar series for the optimizer's
200-bar minimum. -/
theorem insufficientData_sentinels_witness :
    (oneBarProbe.length < 2 ∧
        runBacktest (jsMathZero ℚ) oneBarProbe ⟨"hamilton", [], 10000, false, 1 / 10⟩ =
          createEmptyResult "hamilton") ∧
      (getStrategyById (α := ℚ) "nope" = none ∧
        runBacktest (jsMathZero ℚ) windowProbeBars ⟨"nope", [], 10000, false, 1 / 10⟩ =
          createEmptyResult "nope") ∧
      (oneBarProbe.length < 200 ∧
        runWalkForwardOptimization (jsMathZero ℚ) oneBarProbe
          ⟨"ma_crossover", 5, 7 / 10, OptimizationMetric.sharpe, 10000, false, 1 / 10, []⟩ =
          none) := by
  have hnone : getStrategyById (α := ℚ) "nope" = none := by rfl
  refine ⟨⟨by norm_num [oneBarProbe], ?_⟩, ⟨hnone, ?_⟩, by norm_num [oneBarProbe], ?_⟩
  · exact (insufficientData_sentinels (jsMathZero ℚ)).1 oneBarProbe _
      (by norm_num [oneBarProbe])
  · exact (insufficientData_sentinels (jsMathZero ℚ)).2.1 windowProbeBars _ hnone
  · exact (insufficientData_sentinels (jsMathZero ℚ)).2.2.1 oneBarProbe _
      (by norm_num [oneBarProbe])

/-! C3/C10: the backtest loop under all-HOLD signals, and the transaction-cost
accounting of closes. -/

/-- The (date, strategy, buyAndHold) projection of an equity point. -/
def ecPoint3 {α : Type} (p : EquityPoint α) : ℕ × α × α :=
  (p.date, p.strategy, p.buyAndHold)

lemma getD_of_all_hold (signals : List StrategySignal)
    (hsig : ∀ s ∈ signals, s = StrategySignal.HOLD) (i : ℕ) :
    signals.getD i StrategySignal.HOLD = StrategySignal.HOLD := by
  rcases lt_or_le i signals.length with hi | hi
  · rw [List.getD_eq_getElem _ _ hi]
    exact hsig _ (List.getElem_mem _)
  · exact List.getD_eq_default _ _ hi

lemma btStep_hold {α : Type} [LinearOrderedField α]
    (tc shares : α) (as : Bool) (i : ℕ) (bar : MarketData α) (st : BTState α)
    (h : st.position = Position.LONG) :
    (btStep tc as shares i bar StrategySignal.HOLD st).position = Position.LONG ∧
      (btStep tc as shares i bar StrategySignal.HOLD st).capital = st.capital ∧
      (btStep tc as shares i bar StrategySignal.HOLD st).entryPrice = st.entryPrice ∧
      (btStep tc as shares i bar StrategySignal.HOLD st).entryDate = st.entryDate ∧
      (btStep tc as shares i bar StrategySignal.HOLD st).entryIndex = st.entryIndex ∧
      (btStep tc as shares i bar StrategySignal.HOLD st).trades = st.trades ∧
      (btStep tc as shares i bar StrategySignal.HOLD st).equityCurve.map ecPoint3 =
        st.equityCurve.map ecPoint3 ++
          [(bar.date,
            st.capital * (1 + (bar.close - st.entryPrice) / st.entryPrice * 100 / 100),
            shares * bar.close)] := by
  simp [btStep, h, ecPoint3]

lemma btLoop_fold_allHOLD {α : Type} [LinearOrderedField α]
    (tc shares : α) (as : Bool) (signals : List StrategySignal)
    (hsig : ∀ s ∈ signals, s = StrategySignal.HOLD) :
    ∀ (L : List (ℕ × MarketData α)) (st : BTState α), st.position = Position.LONG →
      (L.foldl (fun st p =>
          btStep tc as shares p.1 p.2 (signals.getD p.1 StrategySignal.HOLD) st)
        st).position = Position.LONG ∧
      (L.foldl (fun st p =>
          btStep tc as shares p.1 p.2 (signals.getD p.1 StrategySignal.HOLD) st)
        st).capital = st.capital ∧
      (L.foldl (fun st p =>
          btStep tc as shares p.1 p.2 (signals.getD p.1 StrategySignal.HOLD) st)
        st).entryPrice = st.entryPrice ∧
      (L.foldl (fun st p =>
          btStep tc as shares p.1 p.2 (signals.getD p.1 StrategySignal.HOLD) st)
        st).entryDate = st.entryDate ∧
      (L.foldl (fun st p =>
          btStep tc as shares p.1 p.2 (signals.getD p.1 StrategySignal.HOLD) st)
        st).entryIndex = st.entryIndex ∧
      (L.foldl (fun st p =>
          btStep tc as shares p.1 p.2 (signals.getD p.1 StrategySignal.HOLD) st)
        st).trades = st.trades ∧
      (L.foldl (fun st p =>
          btStep tc as shares p.1 p.2 (signals.getD p.1 StrategySignal.HOLD) st)
        st).equityCurve.map ecPoint3 =
        st.equityCurve.map ecPoint3 ++
          L.map (fun p => (p.2.date,
            st.capital * (1 + (p.2.close - st.entryPrice) / st.entryPrice * 100 / 100),
            shares * p.2.close)) := by
  intro L
  induction L with
  | nil => intro st h; simp [h]
  | cons hd tl ih =>
    intro st h
    have hHOLD : signals.getD hd.1 StrategySignal.HOLD = StrategySignal.HOLD :=
      getD_of_all_hold signals hsig hd.1
    simp only [List.foldl_cons, hHOLD]
    obtain ⟨h1, h2, h3, h4, h5, h6, h7⟩ := btStep_hold tc shares as hd.1 hd.2 st h
    obtain ⟨g1, g2, g3, g4, g5, g6, g7⟩ :=
      ih (btStep tc as shares hd.1 hd.2 StrategySignal.HOLD st) h1
    refine ⟨g1, g2.trans h2, g3.trans h3, g4.trans h4, g5.trans h5, g6.trans h6, ?_⟩
    rw [g7, h7, h2, h3]
    simp

/-- C3: on at least 2 bars with every signal HOLD (and a non-zero first
close), the backtest core keeps the initial pre-invested LONG position from
bar 0's close until the forced end-of-period close — the trade list is exactly
that one LONG trade — and the final strategy equity equals the buy-and-hold
final equity times `(1 - transactionCost/100)`, i.e. buy-and-hold up to the
single initial entry cost. -/
theorem runBacktest_allHOLD_parity {α : Type} [LinearOrderedField α] (M : JsMath α)
    (sid sname : String) (data : List (MarketData α)) (signals : List StrategySignal)
    (cfg : BacktestConfig α)
    (hsig : ∀ s ∈ signals, s = StrategySignal.HOLD)
    (hlen : 2 ≤ data.length)
    (hclose : (data.getD 0 default).close ≠ 0) :
    (runBacktestSignals M sid sname data signals cfg).trades =
      [⟨(data.getD 0 default).date, (data.getD 0 default).close,
        (data.getD (data.length - 1) default).date,
        (data.getD (data.length - 1) default).close, TradeSide.LONG,
        ((data.getD (data.length - 1) default).close - (data.getD 0 default).close) /
          (data.getD 0 default).close * 100, data.length - 1⟩] ∧
      ∃ p : EquityPoint α,
        (runBacktestSignals M sid sname data signals cfg).equityCurve[
          (runBacktestSignals M sid sname data signals cfg).equityCurve.length - 1]? =
          some p ∧
        p.strategy = p.buyAndHold * (1 - cfg.transactionCost / 100) := by
  have hpos : (btInit cfg.initialCapital cfg.transactionCost data).position =
      Position.LONG := rfl
  obtain ⟨l1, l2, l3, l4, l5, l6, l7⟩ :=
    btLoop_fold_allHOLD cfg.transactionCost
      (cfg.initialCapital / (data.getD 0 default).close) cfg.allowShorts signals hsig
      data.enum (btInit cfg.initialCapital cfg.transactionCost data) hpos
  set st0 := btInit cfg.initialCapital cfg.transactionCost data with hst0
  set st1 := btLoop cfg.transactionCost cfg.allowShorts
    (cfg.initialCapital / (data.getD 0 default).close) data signals st0 with hst1
  have hst1eq : st1 = data.enum.foldl (fun st p =>
      btStep cfg.transactionCost cfg.allowShorts
        (cfg.initialCapital / (data.getD 0 default).close) p.1 p.2
        (signals.getD p.1 StrategySignal.HOLD) st) st0 := rfl
  rw [← hst1eq] at l1 l2 l3 l4 l5 l6 l7
  have hcap0 : st0.capital = cfg.initialCapital * (1 - cfg.transactionCost / 100) := rfl
  have hentry0 : st0.entryPrice = (data.getD 0 default).close := rfl
  have hdate0 : st0.entryDate = (data.getD 0 default).date := rfl
  have hidx0 : st0.entryIndex = 0 := rfl
  have htr0 : st0.trades = [] := rfl
  have hec0 : st0.equityCurve = [] := rfl
  set st2 := btCloseEnd data st1 with hst2
  have hclose2 : st2 = { st1 with
      capital := st1.capital *
        (1 + ((data.getD (data.length - 1) default).close - st1.entryPrice) /
          st1.entryPrice * 100 / 100)
      trades := st1.trades ++ [⟨st1.entryDate, st1.entryPrice,
        (data.getD (data.length - 1) default).date,
        (data.getD (data.length - 1) default).close, TradeSide.LONG,
        ((data.getD (data.length - 1) default).close - st1.entryPrice) /
          st1.entryPrice * 100, data.length - 1 - st1.entryIndex⟩] } := by
    rw [hst2]
    unfold btCloseEnd
    rw [l1]
  have hres : runBacktestSignals M sid sname data signals cfg =
      btBuildResult M sid sname cfg.initialCapital data signals st2 := rfl
  have htrades : (btBuildResult M sid sname cfg.initialCapital data signals st2).trades =
      st2.trades := rfl
  have hec : (btBuildResult M sid sname cfg.initialCapital data signals st2).equityCurve =
      st2.equityCurve := rfl
  constructor
  · rw [hres, htrades, hclose2]
    simp only [l6, l3, l4, l5, htr0, hdate0, hentry0, hidx0, List.nil_append,
      Nat.sub_zero]
  · rw [hres, hec, hclose2]
    have hecurve : st2.equityCurve = st1.equityCurve := by rw [hclose2]
    have hproj : st1.equityCurve.map ecPoint3 =
        data.enum.map (fun p => (p.2.date,
          st0.capital * (1 + (p.2.close - st0.entryPrice) / st0.entryPrice * 100 / 100),
          cfg.initialCapital / (data.getD 0 default).close * p.2.close)) := by
      rw [l7, hec0]
      simp
    have hlenec : st1.equityCurve.length = data.length := by
      have := congrArg List.length hproj
      simpa using this
    have hi : data.length - 1 < data.length := by omega
    have hiec : data.length - 1 < st1.equityCurve.length := by rw [hlenec]; exact hi
    have hienum : data.length - 1 < data.enum.length := by
      rw [List.enum_length]; exact hi
    obtain ⟨p, hp⟩ : ∃ p, st1.equityCurve[data.length - 1]? = some p :=
      ⟨_, List.getElem?_eq_getElem hiec⟩
    have hppt : ecPoint3 p = ((data.enum[data.length - 1]).2.date,
        st0.capital * (1 + ((data.enum[data.length - 1]).2.close - st0.entryPrice) /
          st0.entryPrice * 100 / 100),
        cfg.initialCapital / (data.getD 0 default).close *
          (data.enum[data.length - 1]).2.close) := by
      have h1 : (st1.equityCurve.map ecPoint3)[data.length - 1]? =
          some (ecPoint3 p) := by
        rw [List.getElem?_map, hp]
        rfl
      rw [hproj, List.getElem?_map, List.getElem?_eq_getElem hienum,
        Option.map_some'] at h1
      exact (Option.some.inj h1).symm
    have henumval : data.enum[data.length - 1] =
        (data.length - 1, data[data.length - 1]) := List.getElem_enum _ _ hienum
    have hgetD : data[data.length - 1] = data.getD (data.length - 1) default :=
      (List.getD_eq_getElem data default hi).symm
    refine ⟨p, ?_, ?_⟩
    · rw [show st1.equityCurve.length = ({ st1 with
        capital := st1.capital *
          (1 + ((data.getD (data.length - 1) default).close - st1.entryPrice) /
            st1.entryPrice * 100 / 100)
        trades := st1.trades ++ [⟨st1.entryDate, st1.entryPrice,
          (data.getD (data.length - 1) default).date,
          (data.getD (data.length - 1) default).close, TradeSide.LONG,
          ((data.getD (data.length - 1) default).close - st1.entryPrice) /
            st1.entryPrice * 100, data.length - 1 - st1.entryIndex⟩] } :
            BTState α).equityCurve.length from rfl] at hlenec
      rw [hlenec, hp]
    · rw [henumval, hgetD] at hppt
      have hs : p.strategy = st0.capital *
          (1 + ((data.getD (data.length - 1) default).close - st0.entryPrice) /
            st0.entryPrice * 100 / 100) := congrArg (fun q => q.2.1) hppt
      have hb : p.buyAndHold = cfg.initialCapital / (data.getD 0 default).close *
          (data.getD (data.length - 1) default).close := congrArg (fun q => q.2.2) hppt
      rw [hs, hb, hcap0, hentry0]
      set e := (data.getD 0 default).close with he
      field_simp
      ring

/-- Two probe bars with closes 100 and 110. -/
def twoBarProbe : List (MarketData ℚ) :=
  [{ date := 0, openPrice := 100, high := 100, low := 100, close := 100, volume := 1,
     demand := 0, supply := 0 },
   { date := 1, openPrice := 110, high := 110, low := 110, close := 110, volume := 1,
     demand := 0, supply := 0 }]

/-- Witness for C3: two bars (closes 100, 110), all-HOLD signals, default-like
configuration with a 0.1 percent transaction cost. -/
theorem runBacktest_allHOLD_parity_witness :
    (∀ s ∈ [StrategySignal.HOLD, StrategySignal.HOLD], s = StrategySignal.HOLD) ∧
      2 ≤ twoBarProbe.length ∧ (twoBarProbe.getD 0 default).close ≠ 0 ∧
      ((runBacktestSignals (jsMathZero ℚ) "x" "X" twoBarProbe
          [StrategySignal.HOLD, StrategySignal.HOLD] ⟨"x", [], 10000, false, 1 / 10⟩).trades =
        [⟨(twoBarProbe.getD 0 default).date, (twoBarProbe.getD 0 default).close,
          (twoBarProbe.getD (twoBarProbe.length - 1) default).date,
          (twoBarProbe.getD (twoBarProbe.length - 1) default).close, TradeSide.LONG,
          ((twoBarProbe.getD (twoBarProbe.length - 1) default).close -
            (twoBarProbe.getD 0 default).close) /
            (twoBarProbe.getD 0 default).close * 100, twoBarProbe.length - 1⟩] ∧
        ∃ p : EquityPoint ℚ,
          (runBacktestSignals (jsMathZero ℚ) "x" "X" twoBarProbe
            [StrategySignal.HOLD, StrategySignal.HOLD]
            ⟨"x", [], 10000, false, 1 / 10⟩).equityCurve[
            (runBacktestSignals (jsMathZero ℚ) "x" "X" twoBarProbe
              [StrategySignal.HOLD, StrategySignal.HOLD]
              ⟨"x", [], 10000, false, 1 / 10⟩).equityCurve.length - 1]? = some p ∧
          p.strategy = p.buyAndHold *
            (1 - (⟨"x", [], 10000, false, 1 / 10⟩ : BacktestConfig ℚ).transactionCost / 100)) := by
  refine ⟨by decide, by norm_num [twoBarProbe], by norm_num [twoBarProbe], ?_⟩
  exact runBacktest_allHOLD_parity (jsMathZero ℚ) "x" "X" twoBarProbe
    [StrategySignal.HOLD, StrategySignal.HOLD] ⟨"x", [], 10000, false, 1 / 10⟩
    (by decide) (by norm_num [twoBarProbe]) (by norm_num [twoBarProbe])

/-- C10: the forced final close realizes the open position's return into
capital with **no** transaction cost, whereas the initial pre-invested entry,
every signal-driven entry and every signal-driven close multiply capital by
`(1 - transactionCost/100)`; consequently an all-HOLD run pays exactly one
transaction cost: its final capital is
`initialCapital · (1 - tc/100) · (1 + r/100)` with `r` the buy-and-hold
return percentage. -/
theorem backtest_transaction_cost_accounting {α : Type} [LinearOrderedField α]
    (tc shares C : α) (as : Bool) (i : ℕ) (bar : MarketData α)
    (data : List (MarketData α)) (st : BTState α) (signals : List StrategySignal) :
    ((btInit C tc data).capital = C * (1 - tc / 100)) ∧
      (st.position = Position.FLAT →
        (btStep tc as shares i bar StrategySignal.BUY st).capital =
          st.capital * (1 - tc / 100)) ∧
      (st.position = Position.LONG →
        (btStep tc false shares i bar StrategySignal.SELL st).capital =
          st.capital * (1 + (bar.close - st.entryPrice) / st.entryPrice * 100 / 100) *
            (1 - tc / 100)) ∧
      (st.position = Position.LONG →
        (btCloseEnd data st).capital =
          st.capital * (1 + ((data.getD (data.length - 1) default).close -
            st.entryPrice) / st.entryPrice * 100 / 100)) ∧
      (st.position = Position.SHORT →
        (btCloseEnd data st).capital =
          st.capital * (1 + (st.entryPrice -
            (data.getD (data.length - 1) default).close) / st.entryPrice * 100 / 100)) ∧
      ((∀ s ∈ signals, s = StrategySignal.HOLD) →
        (btCloseEnd data (btLoop tc as shares data signals (btInit C tc data))).capital =
          C * (1 - tc / 100) *
            (1 + ((data.getD (data.length - 1) default).close -
              (data.getD 0 default).close) / (data.getD 0 default).close * 100 / 100)) := by
  refine ⟨rfl, ?_, ?_, ?_, ?_, ?_⟩
  · intro h
    simp [btStep, h]
  · intro h
    simp [btStep, h]
  · intro h
    unfold btCloseEnd
    rw [h]
  · intro h
    unfold btCloseEnd
    rw [h]
  · intro hsig
    obtain ⟨l1, l2, l3, -, -, -, -⟩ :=
      btLoop_fold_allHOLD tc shares as signals hsig data.enum (btInit C tc data) rfl
    have hloop : btLoop tc as shares data signals (btInit C tc data) =
        data.enum.foldl (fun st p =>
          btStep tc as shares p.1 p.2 (signals.getD p.1 StrategySignal.HOLD) st)
          (btInit C tc data) := rfl
    rw [hloop]
    unfold btCloseEnd
    rw [l1, l2, l3]
    rfl

/-- Witness for C10 over `ℚ`: concrete FLAT/LONG/SHORT states, the two probe
bars and all-HOLD signals. -/
theorem backtest_transaction_cost_accounting_witness :
    ((⟨1000, Position.FLAT, 50, 0, 0, [], [], 1000⟩ : BTState ℚ).position =
        Position.FLAT ∧
      (⟨1000, Position.LONG, 50, 0, 0, [], [], 1000⟩ : BTState ℚ).position =
        Position.LONG ∧
      (∀ s ∈ [StrategySignal.HOLD, StrategySignal.HOLD], s = StrategySignal.HOLD)) ∧
      ((btInit (10000 : ℚ) (1 / 10) twoBarProbe).capital =
        10000 * (1 - (1 / 10 : ℚ) / 100)) ∧
      ((btStep (1 / 10 : ℚ) false 1 0 (twoBarProbe.getD 1 default) StrategySignal.BUY
          ⟨1000, Position.FLAT, 50, 0, 0, [], [], 1000⟩).capital =
        1000 * (1 - (1 / 10 : ℚ) / 100)) ∧
      ((btCloseEnd twoBarProbe
          (btLoop (1 / 10 : ℚ) false 1 twoBarProbe
            [StrategySignal.HOLD, StrategySignal.HOLD]
            (btInit 10000 (1 / 10) twoBarProbe))).capital =
        10000 * (1 - (1 / 10 : ℚ) / 100) *
          (1 + ((twoBarProbe.getD (twoBarProbe.length - 1) default).close -
            (twoBarProbe.getD 0 default).close) /
            (twoBarProbe.getD 0 default).close * 100 / 100)) := by
  refine ⟨⟨rfl, rfl, by decide⟩, ?_, ?_, ?_⟩
  · exact (backtest_transaction_cost_accounting (1 / 10 : ℚ) 1 10000 false 0
      (twoBarProbe.getD 1 default) twoBarProbe
      ⟨1000, Position.FLAT, 50, 0, 0, [], [], 1000⟩ []).1
  · exact (backtest_transaction_cost_accounting (1 / 10 : ℚ) 1 1000 false 0
      (twoBarProbe.getD 1 default) twoBarProbe
      ⟨1000, Position.FLAT, 50, 0, 0, [], [], 1000⟩ []).2.1 rfl
  · exact (backtest_transaction_cost_accounting (1 / 10 : ℚ) 1 10000 false 0
      (twoBarProbe.getD 1 default) twoBarProbe
      ⟨1000, Position.FLAT, 50, 0, 0, [], [], 1000⟩
      [StrategySignal.HOLD, StrategySignal.HOLD]).2.2.2.2.2 (by decide)

/-! C9: finiteness of `profitFactor` and `overfitRatio`. -/

lemma btBuildResult_profitFactor {α : Type} [LinearOrderedField α] (M : JsMath α)
    (sid sname : String) (C : α) (data : List (MarketData α))
    (signals : List StrategySignal) (st : BTState α) :
    (btBuildResult M sid sname C data signals st).profitFactor =
      (if 0 < |((st.trades.filter (fun t => decide (t.returnPct ≤ 0))).map
          (fun t => t.returnPct)).sum| then
        some (((st.trades.filter (fun t => decide (0 < t.returnPct))).map
            (fun t => t.returnPct)).sum /
          |((st.trades.filter (fun t => decide (t.returnPct ≤ 0))).map
            (fun t => t.returnPct)).sum|)
      else if 0 < ((st.trades.filter (fun t => decide (0 < t.returnPct))).map
          (fun t => t.returnPct)).sum then none
      else some 0) := rfl

lemma wins_sum_nonneg {α : Type} [LinearOrderedField α] (trades : List (Trade α)) :
    0 ≤ ((trades.filter (fun t => decide (0 < t.returnPct))).map
      (fun t => t.returnPct)).sum := by
  apply List.sum_nonneg
  intro x hx
  obtain ⟨t, ht, rfl⟩ := List.mem_map.mp hx
  have := List.of_mem_filter ht
  exact le_of_lt (by simpa using this)

lemma wins_sum_pos_iff {α : Type} [LinearOrderedField α] (trades : List (Trade α)) :
    0 < ((trades.filter (fun t => decide (0 < t.returnPct))).map
        (fun t => t.returnPct)).sum ↔
      trades.filter (fun t => decide (0 < t.returnPct)) ≠ [] := by
  constructor
  · intro h hnil
    rw [hnil] at h
    simp at h
  · intro h
    apply List.sum_pos
    · intro x hx
      obtain ⟨t, ht, rfl⟩ := List.mem_map.mp hx
      have := List.of_mem_filter ht
      simpa using this
    · simpa using h

/-- C9 amended, part used by the general theorem: `profitFactor` is `none`
(the `Infinity` sentinel) exactly when there is a winning trade and the losing
trades' total magnitude is 0, and is a non-negative finite value otherwise. -/
lemma btBuildResult_profitFactor_iff {α : Type} [LinearOrderedField α] (M : JsMath α)
    (sid sname : String) (C : α) (data : List (MarketData α))
    (signals : List StrategySignal) (st : BTState α) :
    ((btBuildResult M sid sname C data signals st).profitFactor = none ↔
      st.trades.filter (fun t => decide (0 < t.returnPct)) ≠ [] ∧
        |((st.trades.filter (fun t => decide (t.returnPct ≤ 0))).map
          (fun t => t.returnPct)).sum| = 0) ∧
      0 ≤ ((btBuildResult M sid sname C data signals st).profitFactor).getD 0 := by
  rw [btBuildResult_profitFactor]
  set W := ((st.trades.filter (fun t => decide (0 < t.returnPct))).map
    (fun t => t.returnPct)).sum with hW
  set L := |((st.trades.filter (fun t => decide (t.returnPct ≤ 0))).map
    (fun t => t.returnPct)).sum| with hL
  have hLnn : 0 ≤ L := abs_nonneg _
  have hWnn : 0 ≤ W := wins_sum_nonneg st.trades
  constructor
  · split_ifs with h1 h2
    · simp only [Option.some_ne_none, false_iff]
      intro hc
      exact absurd h1 (by rw [hc.2]; exact lt_irrefl 0)
    · simp only [true_iff]
      refine ⟨(wins_sum_pos_iff st.trades).mp h2, ?_⟩
      exact le_antisymm (le_of_not_lt h1) hLnn
    · simp only [Option.some_ne_none, false_iff]
      intro hc
      exact h2 ((wins_sum_pos_iff st.trades).mpr hc.1)
  · split_ifs with h1 h2
    · simp only [Option.getD_some]
      exact div_nonneg hWnn hLnn
    · simp
    · simp

lemma paramValues_ne_nil {α : Type} [LinearOrderedField α] [FloorRing α]
    (lo hi step : α) (h1 : 0 < step) (h2 : lo ≤ hi) :
    paramValues lo hi step ≠ [] := by
  unfold paramValues
  rw [if_pos ⟨h1, h2⟩]
  intro hnil
  have hlen := congrArg List.length hnil
  simp at hlen

lemma cartesianCombos_ne_nil {α : Type} :
    ∀ ranges : List (String × List α), (∀ pr ∈ ranges, pr.2 ≠ []) →
      cartesianCombos ranges ≠ []
  | [], _ => by simp [cartesianCombos]
  | (id, values) :: rest, h => by
    have hrest : cartesianCombos rest ≠ [] :=
      cartesianCombos_ne_nil rest (fun pr hpr => h pr (List.mem_cons_of_mem _ hpr))
    have hv : values ≠ [] := h (id, values) (List.mem_cons_self _ _)
    cases hval : values with
    | nil => exact absurd hval hv
    | cons v vs =>
      cases hcc : cartesianCombos rest with
      | nil => exact absurd hcc hrest
      | cons c cs =>
        simp [cartesianCombos, hval, hcc]

lemma strategies_params_wellformed {α : Type} [LinearOrderedField α] [FloorRing α] :
    ∀ s ∈ strategies (α := α), ∀ p ∈ s.parameters, 0 < p.step ∧ p.min ≤ p.max := by
  intro s hs
  fin_cases hs <;>
    · intro p hp
      fin_cases hp <;> constructor <;> norm_num

lemma generateParameterCombinations_ne_nil {α : Type} [LinearOrderedField α]
    [FloorRing α] (s : Strategy α)
    (h : ∀ p ∈ s.parameters, 0 < p.step ∧ p.min ≤ p.max) :
    generateParameterCombinations s [] ≠ [] := by
  unfold generateParameterCombinations
  split_ifs with he
  · simp
  · apply cartesianCombos_ne_nil
    intro pr hpr
    obtain ⟨p, hp, rfl⟩ := List.mem_map.mp hpr
    simp only [List.find?_nil]
    exact paramValues_ne_nil _ _ _ (h p hp).1 (h p hp).2

lemma optimizeWindow_fold_isSome {α : Type} [LinearOrderedField α] [FloorRing α]
    (M : JsMath α) (trainData : List (MarketData α)) (strategy : Strategy α)
    (cfg : OptimizationConfig α) :
    ∀ (combos : List (List (String × α))) (acc : List (String × α) × Option α),
      acc.2.isSome = true →
      ((combos.foldl (fun acc params =>
        let result := runBacktest M trainData
          ⟨strategy.id, params, cfg.initialCapital, cfg.allowShorts, cfg.transactionCost⟩
        let metric := getMetricValue result cfg.optimizationMetric
        match acc.2 with
        | none => (params, some metric)
        | some best => if best < metric then (params, some metric) else acc) acc).2).isSome
        = true
  | [], acc, h => h
  | c :: rest, acc, h => by
    rw [List.foldl_cons]
    apply optimizeWindow_fold_isSome M trainData strategy cfg rest
    obtain ⟨b, hb⟩ := Option.isSome_iff_exists.mp h
    simp only [hb]
    split_ifs <;> simp [hb]

lemma optimizeWindow_isSome {α : Type} [LinearOrderedField α] [FloorRing α]
    (M : JsMath α) (trainData : List (MarketData α)) (strategy : Strategy α)
    (combinations : List (List (String × α))) (cfg : OptimizationConfig α)
    (hc : combinations ≠ []) :
    ((optimizeWindow M trainData strategy combinations cfg).2).isSome = true := by
  unfold optimizeWindow
  cases combinations with
  | nil => exact absurd rfl hc
  | cons c rest =>
    rw [List.foldl_cons]
    apply optimizeWindow_fold_isSome
    simp

lemma wfoStep_fst {α : Type} [LinearOrderedField α] [FloorRing α]
    (M : JsMath α) (data : List (MarketData α)) (cfg : OptimizationConfig α)
    (strategy : Strategy α) (combinations : List (List (String × α)))
    (acc : WfoAcc α) (wp : ℕ × WFWindow α) :
    ∃ wr : WindowResult α,
      (wfoStep M data cfg strategy combinations acc wp).1 = acc.1 ++ [wr] ∧
        wr.trainMetric = (optimizeWindow M wp.2.train strategy combinations cfg).2 :=
  ⟨_, rfl, rfl⟩

lemma wfoFold_trainMetric_isSome {α : Type} [LinearOrderedField α] [FloorRing α]
    (M : JsMath α) (data : List (MarketData α)) (cfg : OptimizationConfig α)
    (strategy : Strategy α) (combinations : List (List (String × α)))
    (hc : combinations ≠ []) :
    ∀ (L : List (ℕ × WFWindow α)) (acc : WfoAcc α),
      (∀ w ∈ acc.1, w.trainMetric.isSome = true) →
      ∀ w ∈ (L.foldl (wfoStep M data cfg strategy combinations) acc).1,
        w.trainMetric.isSome = true
  | [], acc, hacc => hacc
  | hd :: tl, acc, hacc => by
    rw [List.foldl_cons]
    apply wfoFold_trainMetric_isSome M data cfg strategy combinations hc tl
    intro w hw
    obtain ⟨wr, hfst, htm⟩ :=
      wfoStep_fst M data cfg strategy combinations acc hd
    rw [hfst] at hw
    rcases List.mem_append.mp hw with h | h
    · exact hacc w h
    · rw [List.mem_singleton.mp h, htm]
      exact optimizeWindow_isSome M hd.2.train strategy combinations cfg hc

lemma runBacktestSignals_profitFactor_iff {α : Type} [LinearOrderedField α]
    (M : JsMath α) (sid sname : String) (data : List (MarketData α))
    (signals : List StrategySignal) (cfg : BacktestConfig α) :
    ((runBacktestSignals M sid sname data signals cfg).profitFactor = none ↔
      (runBacktestSignals M sid sname data signals cfg).trades.filter
          (fun t => decide (0 < t.returnPct)) ≠ [] ∧
        |(((runBacktestSignals M sid sname data signals cfg).trades.filter
            (fun t => decide (t.returnPct ≤ 0))).map (fun t => t.returnPct)).sum| = 0) ∧
      0 ≤ ((runBacktestSignals M sid sname data signals cfg).profitFactor).getD 0 :=
  btBuildResult_profitFactor_iff M sid sname cfg.initialCapital data signals
    (btCloseEnd data (btLoop cfg.transactionCost cfg.allowShorts
      (cfg.initialCapital / (data.getD 0 default).close) data signals
      (btInit cfg.initialCapital cfg.transactionCost data)))

lemma createEmptyResult_profitFactor_iff {α : Type} [LinearOrderedField α]
    [FloorRing α] (sid : String) :
    (((createEmptyResult (α := α) sid).profitFactor = none ↔
      (createEmptyResult (α := α) sid).trades.filter
          (fun t => decide (0 < t.returnPct)) ≠ [] ∧
        |(((createEmptyResult (α := α) sid).trades.filter
            (fun t => decide (t.returnPct ≤ 0))).map (fun t => t.returnPct)).sum| = 0) ∧
      0 ≤ ((createEmptyResult (α := α) sid).profitFactor).getD 0) := by
  refine ⟨?_, ?_⟩ <;> simp [createEmptyResult]

lemma overfit_decide_aux {α : Type} [LinearOrderedField α] (A T : α) (b : Bool)
    (hb : b = true) :
    (if A ≠ 0 then
        Option.map (fun m => m / A) (if b = true then some T else none)
      else none).isNone = decide (A = 0) := by
  subst hb
  by_cases hA : A = 0 <;> simp [hA]

lemma wfo_overfit_iff {α : Type} [LinearOrderedField α] [FloorRing α]
    (M : JsMath α) (data : List (MarketData α)) (cfg : OptimizationConfig α)
    (hpr : cfg.parameterRanges = []) :
    (runWalkForwardOptimization M data cfg).map
        (fun r => r.overfitRatio.isNone) =
      (runWalkForwardOptimization M data cfg).map
        (fun r => decide (r.avgTestMetric = 0)) := by
  unfold runWalkForwardOptimization
  cases hfind : (strategies (α := α)).find? (fun s => decide (s.id = cfg.strategyId)) with
  | none => rfl
  | some strategy =>
    by_cases hlen : data.length < 200
    · simp [hlen]
    · have hstrat : strategy ∈ strategies (α := α) := List.mem_of_find?_eq_some hfind
      have hcomb : generateParameterCombinations strategy cfg.parameterRanges ≠ [] := by
        rw [hpr]
        exact generateParameterCombinations_ne_nil strategy
          (strategies_params_wellformed strategy hstrat)
      have hall : (((createWindows data cfg.numWindows cfg.trainRatio).enum.foldl
          (wfoStep M data cfg strategy
            (generateParameterCombinations strategy cfg.parameterRanges))
          ([], [], [], cfg.initialCapital)).1).all
            (fun w => w.trainMetric.isSome) = true :=
        List.all_eq_true.mpr (fun w hw =>
          wfoFold_trainMetric_isSome M data cfg strategy
            (generateParameterCombinations strategy cfg.parameterRanges) hcomb
            (createWindows data cfg.numWindows cfg.trainRatio).enum
            ([], [], [], cfg.initialCapital)
            (fun x hx => absurd hx (List.not_mem_nil x)) w hw)
      dsimp only
      rw [if_neg hlen]
      simp only [Option.map_some']
      congr 1
      dsimp only
      exact overfit_decide_aux _ _ _ hall

lemma runBacktestSignals_allHOLD_trades {α : Type} [LinearOrderedField α]
    (M : JsMath α) (sid sname : String) (data : List (MarketData α))
    (signals : List StrategySignal) (cfg : BacktestConfig α)
    (hsig : ∀ s ∈ signals, s = StrategySignal.HOLD) :
    (runBacktestSignals M sid sname data signals cfg).trades =
      [⟨(data.getD 0 default).date, (data.getD 0 default).close,
        (data.getD (data.length - 1) default).date,
        (data.getD (data.length - 1) default).close, TradeSide.LONG,
        ((data.getD (data.length - 1) default).close - (data.getD 0 default).close) /
          (data.getD 0 default).close * 100, data.length - 1⟩] := by
  have hpos : (btInit cfg.initialCapital cfg.transactionCost data).position =
      Position.LONG := rfl
  obtain ⟨l1, l2, l3, l4, l5, l6, l7⟩ :=
    btLoop_fold_allHOLD cfg.transactionCost
      (cfg.initialCapital / (data.getD 0 default).close) cfg.allowShorts signals hsig
      data.enum (btInit cfg.initialCapital cfg.transactionCost data) hpos
  set st0 := btInit cfg.initialCapital cfg.transactionCost data with hst0
  set st1 := btLoop cfg.transactionCost cfg.allowShorts
    (cfg.initialCapital / (data.getD 0 default).close) data signals st0 with hst1
  have hst1eq : st1 = data.enum.foldl (fun st p =>
      btStep cfg.transactionCost cfg.allowShorts
        (cfg.initialCapital / (data.getD 0 default).close) p.1 p.2
        (signals.getD p.1 StrategySignal.HOLD) st) st0 := rfl
  rw [← hst1eq] at l1 l3 l4 l5 l6
  have hentry0 : st0.entryPrice = (data.getD 0 default).close := rfl
  have hdate0 : st0.entryDate = (data.getD 0 default).date := rfl
  have hidx0 : st0.entryIndex = 0 := rfl
  have htr0 : st0.trades = [] := rfl
  set st2 := btCloseEnd data st1 with hst2
  have hclose2 : st2 = { st1 with
      capital := st1.capital *
        (1 + ((data.getD (data.length - 1) default).close - st1.entryPrice) /
          st1.entryPrice * 100 / 100)
      trades := st1.trades ++ [⟨st1.entryDate, st1.entryPrice,
        (data.getD (data.length - 1) default).date,
        (data.getD (data.length - 1) default).close, TradeSide.LONG,
        ((data.getD (data.length - 1) default).close - st1.entryPrice) /
          st1.entryPrice * 100, data.length - 1 - st1.entryIndex⟩] } := by
    rw [hst2]
    unfold btCloseEnd
    rw [l1]
  have hres : runBacktestSignals M sid sname data signals cfg =
      btBuildResult M sid sname cfg.initialCapital data signals st2 := rfl
  have htrades : (btBuildResult M sid sname cfg.initialCapital data signals st2).trades =
      st2.trades := rfl
  rw [hres, htrades, hclose2]
  simp only [l6, l3, l4, l5, htr0, hdate0, hentry0, hidx0, List.nil_append,
    Nat.sub_zero]

/-- C9 counterexample: the spec says `profitFactor` is always a finite number,
but a backtest whose single trade is a winner (here: MA-Crossover on two bars
with closes 100 and 110, whose signals are all HOLD, so the initial LONG
position is force-closed at a +10 percent gain) has no losing trades, and the
code returns `Infinity` (modelled as `none`) for `profitFactor`. -/
theorem profitFactor_infinity_counterexample :
    (runBacktest (jsMathZero ℚ) twoBarProbe
      ⟨"ma_crossover", [], 10000, false, 1 / 10⟩).profitFactor = none := by
  have h2 : runBacktest (jsMathZero ℚ) twoBarProbe
      ⟨"ma_crossover", [], 10000, false, 1 / 10⟩ =
      runBacktestSignals (jsMathZero ℚ) "ma_crossover" "Moving Average Crossover"
        twoBarProbe (maCrossoverCalculate twoBarProbe []).signals
        ⟨"ma_crossover", [], 10000, false, 1 / 10⟩ := rfl
  have hsigs : (maCrossoverCalculate twoBarProbe ([] : List (String × ℚ))).signals =
      [StrategySignal.HOLD, StrategySignal.HOLD] := by
    simp only [maCrossoverCalculate, param, twoBarProbe]
    norm_num [List.range_succ]
  rw [h2, hsigs]
  have htr := runBacktestSignals_allHOLD_trades (jsMathZero ℚ) "ma_crossover"
    "Moving Average Crossover" twoBarProbe [StrategySignal.HOLD, StrategySignal.HOLD]
    ⟨"ma_crossover", [], 10000, false, 1 / 10⟩ (by decide)
  have hiff := (runBacktestSignals_profitFactor_iff (jsMathZero ℚ) "ma_crossover"
    "Moving Average Crossover" twoBarProbe [StrategySignal.HOLD, StrategySignal.HOLD]
    ⟨"ma_crossover", [], 10000, false, 1 / 10⟩).1
  rw [hiff, htr]
  constructor
  · norm_num [twoBarProbe, List.getD, List.filter]
  · norm_num [twoBarProbe, List.getD, List.filter]

/-- C9 (amended): `BacktestResult.profitFactor` is the `Infinity` sentinel
(`none`) exactly when the run has at least one winning trade and the losing
trades' total return magnitude is 0; in every other case it is a finite
non-negative number (`Option.getD 0` is always ≥ 0).  With no custom parameter
ranges, `OptimizationResult.overfitRatio` is non-finite (`none`) exactly when
the average test metric is 0 — in particular it is not always a finite
number, contrary to the specification's blanket claim. -/
theorem profitFactor_overfit_sentinels {α : Type} [LinearOrderedField α]
    [FloorRing α] (M : JsMath α) :
    (∀ (data : List (MarketData α)) (cfg : BacktestConfig α),
      ((runBacktest M data cfg).profitFactor = none ↔
        (runBacktest M data cfg).trades.filter
            (fun t => decide (0 < t.returnPct)) ≠ [] ∧
          |(((runBacktest M data cfg).trades.filter
              (fun t => decide (t.returnPct ≤ 0))).map (fun t => t.returnPct)).sum| = 0) ∧
        0 ≤ ((runBacktest M data cfg).profitFactor).getD 0) ∧
    (∀ (data : List (MarketData α)) (sid : String) (nw : ℕ) (tr : α)
        (metric : OptimizationMetric) (cap : α) (ash : Bool) (cost : α),
      (runWalkForwardOptimization M data
          ⟨sid, nw, tr, metric, cap, ash, cost, []⟩).map
          (fun r => r.overfitRatio.isNone) =
        (runWalkForwardOptimization M data
          ⟨sid, nw, tr, metric, cap, ash, cost, []⟩).map
          (fun r => decide (r.avgTestMetric = 0))) := by
  constructor
  · intro data cfg
    unfold runBacktest
    by_cases hlen : data.length < 2
    · rw [if_pos hlen]
      exact createEmptyResult_profitFactor_iff cfg.strategyId
    · rw [if_neg hlen]
      cases hs : getStrategyById (α := α) cfg.strategyId with
      | none => exact createEmptyResult_profitFactor_iff cfg.strategyId
      | some strategy =>
        exact runBacktestSignals_profitFactor_iff M cfg.strategyId strategy.name data
          (strategy.calculate data cfg.strategyParams).signals cfg
  · intro data sid nw tr metric cap ash cost
    exact wfo_overfit_iff M data ⟨sid, nw, tr, metric, cap, ash, cost, []⟩ rfl

/-! C7: the `recommendedParams` tie-break. -/

/-- The specification's words for the `recommendedParams` selection: walk the
per-value counts in insertion (first-seen) order, keeping the first value
whose count strictly exceeds the running maximum — so a tie keeps the
first-seen value.  Declared for comparison with `recommendedValue`, which
follows the source through `Object.entries`' numeric-key reordering. -/
def firstSeenMode {α : Type} [LinearOrderedField α] (counts : List (α × ℕ)) : α :=
  (counts.foldl (fun (acc : ℕ × α) c =>
    if acc.1 < c.2 then (c.2, c.1) else acc) (0, 0)).2

/-- C7 counterexample: two windows select best values 30 then 10 (once each, a
tie).  `Object.entries` enumerates the numeric keys in ascending order, so the
code's `recommendedValue` returns 10 — the smallest tied value — while the
specification's first-seen tie-break would keep 30. -/
theorem recommendedValue_not_firstSeen :
    recommendedValue (bumpCount (bumpCount ([] : List (ℚ × ℕ)) 30) 10) = 10 ∧
      firstSeenMode (bumpCount (bumpCount ([] : List (ℚ × ℕ)) 30) 10) = 30 ∧
      (10 : ℚ) ≠ 30 := by
  have hb : bumpCount (bumpCount ([] : List (ℚ × ℕ)) 30) 10 = [(30, 1), (10, 1)] := by
    norm_num [bumpCount]
  have h30 : isArrayIndexKey (30 : ℚ) = true := by norm_num [isArrayIndexKey]
  have h10 : isArrayIndexKey (10 : ℚ) = true := by norm_num [isArrayIndexKey]
  have hj : jsEntries [((30 : ℚ), 1), (10, 1)] = [(10, 1), (30, 1)] := by
    simp only [jsEntries, List.partition_eq_filter_filter]
    norm_num [List.filter, h30, h10, List.insertionSort, List.orderedInsert]
  rw [hb]
  refine ⟨?_, ?_, by norm_num⟩
  · simp only [recommendedValue, hj, List.foldl_cons, List.foldl_nil]
    norm_num
  · simp only [firstSeenMode, List.foldl_cons, List.foldl_nil]
    norm_num

/-- Proof-infrastructure name for the selection fold of `recommendedValue`,
so its behaviour can be established by induction. -/
def modeFold {α : Type} (L : List (α × ℕ)) (acc : ℕ × α) : ℕ × α :=
  L.foldl (fun (acc : ℕ × α) c => if acc.1 < c.2 then (c.2, c.1) else acc) acc

lemma foldl_max_le : ∀ (l : List ℕ) (a B : ℕ), a ≤ B → (∀ x ∈ l, x ≤ B) →
    l.foldl max a ≤ B
  | [], _, _, ha, _ => ha
  | b :: t, a, B, ha, hl => by
    rw [List.foldl_cons]
    exact foldl_max_le t (max a b) B (max_le ha (hl b (List.mem_cons_self _ _)))
      (fun x hx => hl x (List.mem_cons_of_mem _ hx))

lemma le_foldl_max : ∀ (l : List ℕ) (a : ℕ),
    a ≤ l.foldl max a ∧ ∀ x ∈ l, x ≤ l.foldl max a
  | [], a => ⟨le_refl _, by simp⟩
  | b :: t, a => by
    rw [List.foldl_cons]
    obtain ⟨h1, h2⟩ := le_foldl_max t (max a b)
    refine ⟨le_trans (le_max_left a b) h1, ?_⟩
    intro x hx
    rcases List.mem_cons.mp hx with rfl | hx
    · exact le_trans (le_max_right a x) h1
    · exact h2 x hx

/-- Behaviour of the selection fold on a key-sorted list: the result is the
seed or comes from a list entry whose count strictly exceeds the seed count;
the result count dominates every entry count and the seed count; and among
entries attaining the result count (beyond the seed), the first — hence, by
sortedness, smallest — key is kept. -/
lemma modeFold_spec {α : Type} [LinearOrderedField α] :
    ∀ (L : List (α × ℕ)), L.Pairwise (fun a b => a.1 ≤ b.1) → ∀ acc : ℕ × α,
      (modeFold L acc = acc ∨
        ∃ c ∈ L, modeFold L acc = (c.2, c.1) ∧ acc.1 < c.2) ∧
      acc.1 ≤ (modeFold L acc).1 ∧
      (∀ c ∈ L, c.2 ≤ (modeFold L acc).1) ∧
      (∀ c ∈ L, c.2 = (modeFold L acc).1 → acc.1 < c.2 →
        (modeFold L acc).2 ≤ c.1)
  | [], _, acc => by
    refine ⟨Or.inl rfl, le_refl _, ?_, ?_⟩ <;> intro c hc <;>
      exact absurd hc (List.not_mem_nil c)
  | hd :: tl, hsort, acc => by
    have hhd : ∀ c ∈ tl, hd.1 ≤ c.1 := (List.pairwise_cons.mp hsort).1
    have htl' := (List.pairwise_cons.mp hsort).2
    by_cases hlt : acc.1 < hd.2
    · have hstep : modeFold (hd :: tl) acc = modeFold tl (hd.2, hd.1) := by
        simp [modeFold, hlt]
      obtain ⟨p1, p2, p3, p4⟩ := modeFold_spec tl htl' (hd.2, hd.1)
      rw [hstep]
      refine ⟨?_, ?_, ?_, ?_⟩
      · rcases p1 with h | ⟨d, hd', hde, hdlt⟩
        · exact Or.inr ⟨hd, List.mem_cons_self _ _, h, hlt⟩
        · exact Or.inr ⟨d, List.mem_cons_of_mem _ hd', hde, lt_trans hlt hdlt⟩
      · exact le_trans (le_of_lt hlt) p2
      · intro c hc
        rcases List.mem_cons.mp hc with rfl | hc
        · exact p2
        · exact p3 c hc
      · intro c hc hceq hclt
        rcases List.mem_cons.mp hc with rfl | hc
        · rcases p1 with h | ⟨d, hd', hde, hdlt⟩
          · rw [h]
          · exfalso
            have hceq' : c.2 = d.2 := by rw [hde] at hceq; exact hceq
            have hdlt' : c.2 < d.2 := hdlt
            omega
        · by_cases hcd : hd.2 < c.2
          · exact p4 c hc hceq hcd
          · have hp2' : hd.2 ≤ (modeFold tl (hd.2, hd.1)).1 := p2
            have hc2 : c.2 = hd.2 :=
              le_antisymm (le_of_not_lt hcd) (by rw [hceq]; exact hp2')
            rcases p1 with h | ⟨d, hd', hde, hdlt⟩
            · rw [h]
              exact hhd c hc
            · exfalso
              have hceq' : c.2 = d.2 := by rw [hde] at hceq; exact hceq
              have hdlt' : hd.2 < d.2 := hdlt
              omega
      -- end hlt-positive case
    · have hstep : modeFold (hd :: tl) acc = modeFold tl acc := by
        simp [modeFold, hlt]
      obtain ⟨p1, p2, p3, p4⟩ := modeFold_spec tl htl' acc
      rw [hstep]
      refine ⟨?_, p2, ?_, ?_⟩
      · rcases p1 with h | ⟨d, hd', hde, hdlt⟩
        · exact Or.inl h
        · exact Or.inr ⟨d, List.mem_cons_of_mem _ hd', hde, hdlt⟩
      · intro c hc
        rcases List.mem_cons.mp hc with rfl | hc
        · exact le_trans (le_of_not_lt hlt) p2
        · exact p3 c hc
      · intro c hc hceq hclt
        rcases List.mem_cons.mp hc with rfl | hc
        · exact absurd hclt hlt
        · exact p4 c hc hceq hclt

/-- C7 (amended): when every counted value is a canonical array-index key (a
non-negative integer below 2^32 − 1, as all integer-valued parameters are) and
some value was selected at least once, `recommendedValue` returns a value
whose selection count is maximal (a mode), and among all maximally-selected
values it returns the SMALLEST — not the first-seen one: `Object.entries`
enumerates array-index keys in ascending numeric order and the strict `>`
keeps the earliest enumerated maximal entry. -/
theorem recommendedValue_mode_least {α : Type} [LinearOrderedField α] [FloorRing α]
    (counts : List (α × ℕ))
    (hkeys : ∀ c ∈ counts, isArrayIndexKey c.1 = true)
    (hmax : 0 < (counts.map (fun c => c.2)).foldl max 0) :
    (∃ c ∈ counts, c.1 = recommendedValue counts ∧
        c.2 = (counts.map (fun c => c.2)).foldl max 0) ∧
      ∀ c ∈ counts, c.2 = (counts.map (fun c => c.2)).foldl max 0 →
        recommendedValue counts ≤ c.1 := by
  have h1 : counts.filter (fun c => isArrayIndexKey c.1) = counts :=
    List.filter_eq_self.mpr hkeys
  have hL : jsEntries counts = counts.insertionSort (fun a b => a.1 ≤ b.1) := by
    simp only [jsEntries, List.partition_eq_filter_filter]
    rw [h1, show counts.filter (not ∘ fun c => isArrayIndexKey c.1) = [] from
      List.filter_eq_nil_iff.mpr (fun c hc => by
        simp [Function.comp, hkeys c hc]), List.append_nil]
  haveI hto : IsTotal (α × ℕ) (fun a b => a.1 ≤ b.1) := ⟨fun a b => le_total a.1 b.1⟩
  haveI htr : IsTrans (α × ℕ) (fun a b => a.1 ≤ b.1) :=
    ⟨fun a b c hab hbc => le_trans hab hbc⟩
  have hsort : (jsEntries counts).Pairwise (fun a b => a.1 ≤ b.1) := by
    rw [hL]
    exact List.sorted_insertionSort _ _
  have hperm : (jsEntries counts).Perm counts := by
    rw [hL]
    exact List.perm_insertionSort _ _
  obtain ⟨p1, p2, p3, p4⟩ := modeFold_spec (jsEntries counts) hsort (0, 0)
  have hrv : recommendedValue counts = (modeFold (jsEntries counts) (0, 0)).2 := rfl
  set r := modeFold (jsEntries counts) (0, 0) with hr
  set m := (counts.map (fun c => c.2)).foldl max 0 with hm
  have hmle : m ≤ r.1 := by
    apply foldl_max_le
    · exact Nat.zero_le _
    · intro x hx
      obtain ⟨c, hc, rfl⟩ := List.mem_map.mp hx
      exact p3 c (hperm.mem_iff.mpr hc)
  rcases p1 with hacc | ⟨c0, hc0, hco2, hlt0⟩
  · exfalso
    rw [hacc] at hmle
    have h0 : m ≤ 0 := hmle
    omega
  · have hr1 : r.1 = c0.2 := by rw [hco2]
    have hr2 : r.2 = c0.1 := by rw [hco2]
    have hc0counts : c0 ∈ counts := hperm.mem_iff.mp hc0
    have hc0le : c0.2 ≤ m :=
      (le_foldl_max (counts.map (fun c => c.2)) 0).2 c0.2
        (List.mem_map.mpr ⟨c0, hc0counts, rfl⟩)
    have hr1m : r.1 = m := le_antisymm (hr1 ▸ hc0le) hmle
    refine ⟨⟨c0, hc0counts, ?_, ?_⟩, ?_⟩
    · rw [hrv, hr2]
    · rw [← hr1, hr1m]
    · intro c hc hcm
      rw [hrv]
      exact p4 c (hperm.mem_iff.mpr hc) (by rw [hcm, ← hr1m])
        (by rw [hcm]; exact hmax)

/-- Witness for the amended C7 theorem: counts [(30,1), (10,1)] — the tie is
resolved to 10, which is a maximal-count value and the smallest such. -/
theorem recommendedValue_mode_least_witness :
    (∀ c ∈ [((30 : ℚ), 1), (10, 1)], isArrayIndexKey c.1 = true) ∧
      0 < ([((30 : ℚ), 1), (10, 1)].map (fun c => c.2)).foldl max 0 ∧
      ((∃ c ∈ [((30 : ℚ), 1), (10, 1)],
          c.1 = recommendedValue [((30 : ℚ), 1), (10, 1)] ∧
            c.2 = ([((30 : ℚ), 1), (10, 1)].map (fun c => c.2)).foldl max 0) ∧
        ∀ c ∈ [((30 : ℚ), 1), (10, 1)],
          c.2 = ([((30 : ℚ), 1), (10, 1)].map (fun c => c.2)).foldl max 0 →
            recommendedValue [((30 : ℚ), 1), (10, 1)] ≤ c.1) := by
  have hkeys : ∀ c ∈ [((30 : ℚ), 1), (10, 1)], isArrayIndexKey c.1 = true := by
    intro c hc
    rcases List.mem_cons.mp hc with rfl | hc
    · norm_num [isArrayIndexKey]
    · rcases List.mem_cons.mp hc with rfl | hc
      · norm_num [isArrayIndexKey]
      · exact absurd hc (List.not_mem_nil c)
  have hmax : 0 < ([((30 : ℚ), 1), (10, 1)].map (fun c => c.2)).foldl max 0 := by
    norm_num
  exact ⟨hkeys, hmax, recommendedValue_mode_least _ hkeys hmax⟩

/-! C8: the 300-bar synthetic sine integration scenario.  The sine function is
abstract (like the `JsMath` fields): every theorem holds for every
interpretation of `sin`, in particular the real one. -/

/-- The specification's synthetic series: 300 daily bars with
close = 100 + 10·sin(i/10), open = close, high = close + 0.5,
low = close − 0.5, volume 1,000,000. -/
def c8bars {α : Type} [LinearOrderedField α] (sine : α → α) : List (MarketData α) :=
  (List.range 300).map (fun (i : ℕ) =>
    { date := i, openPrice := 100 + 10 * sine ((i : α) / 10),
      high := 100 + 10 * sine ((i : α) / 10) + 1 / 2,
      low := 100 + 10 * sine ((i : α) / 10) - 1 / 2,
      close := 100 + 10 * sine ((i : α) / 10),
      volume := 1000000, demand := 0, supply := 0 })

lemma btStep_push {α : Type} [LinearOrderedField α] (tc sh : α) (as : Bool) (i : ℕ)
    (bar : MarketData α) (s : StrategySignal) (st : BTState α) :
    ∃ pt : EquityPoint α, (btStep tc as sh i bar s st).equityCurve =
      st.equityCurve ++ [pt] := by
  simp only [btStep]
  cases hp : st.position <;> dsimp only <;> split_ifs <;> exact ⟨_, rfl⟩

lemma btStep_flat_trades {α : Type} [LinearOrderedField α] (tc sh : α) (as : Bool)
    (i : ℕ) (bar : MarketData α) (s : StrategySignal) (st : BTState α)
    (h : st.position = Position.FLAT → st.trades ≠ []) :
    (btStep tc as sh i bar s st).position = Position.FLAT →
      (btStep tc as sh i bar s st).trades ≠ [] := by
  simp only [btStep]
  cases hp : st.position <;> dsimp only <;> split_ifs <;> intro hfl <;>
    first
      | exact h hfl
      | exact hfl.elim
      | exact Position.noConfusion hfl
      | simp

lemma btLoop_equityCurve_suffix {α : Type} [LinearOrderedField α] (tc sh : α)
    (as : Bool) (signals : List StrategySignal) :
    ∀ (L : List (ℕ × MarketData α)) (st : BTState α),
      ∃ suffix : List (EquityPoint α),
        (L.foldl (fun st p => btStep tc as sh p.1 p.2
            (signals.getD p.1 StrategySignal.HOLD) st) st).equityCurve =
          st.equityCurve ++ suffix ∧ suffix.length = L.length
  | [], st => ⟨[], by simp⟩
  | hd :: tl, st => by
    rw [List.foldl_cons]
    obtain ⟨pt, hpt⟩ :=
      btStep_push tc sh as hd.1 hd.2 (signals.getD hd.1 StrategySignal.HOLD) st
    obtain ⟨suffix, hs, hl⟩ := btLoop_equityCurve_suffix tc sh as signals tl
      (btStep tc as sh hd.1 hd.2 (signals.getD hd.1 StrategySignal.HOLD) st)
    refine ⟨pt :: suffix, ?_, by simp [hl]⟩
    rw [hs, hpt]
    simp

lemma btLoop_flat_trades {α : Type} [LinearOrderedField α] (tc sh : α) (as : Bool)
    (signals : List StrategySignal) :
    ∀ (L : List (ℕ × MarketData α)) (st : BTState α),
      (st.position = Position.FLAT → st.trades ≠ []) →
      ((L.foldl (fun st p => btStep tc as sh p.1 p.2
          (signals.getD p.1 StrategySignal.HOLD) st) st).position = Position.FLAT →
        (L.foldl (fun st p => btStep tc as sh p.1 p.2
          (signals.getD p.1 StrategySignal.HOLD) st) st).trades ≠ [])
  | [], _, h => h
  | hd :: tl, st, h => by
    rw [List.foldl_cons]
    exact btLoop_flat_trades tc sh as signals tl _
      (btStep_flat_trades tc sh as hd.1 hd.2 (signals.getD hd.1 StrategySignal.HOLD)
        st h)

lemma btCloseEnd_trades_ne_nil {α : Type} [LinearOrderedField α]
    (data : List (MarketData α)) (st : BTState α)
    (h : st.position = Position.FLAT → st.trades ≠ []) :
    (btCloseEnd data st).trades ≠ [] := by
  unfold btCloseEnd
  cases hp : st.position <;> dsimp only <;> first | exact h hp | simp

lemma btCloseEnd_equityCurve {α : Type} [LinearOrderedField α]
    (data : List (MarketData α)) (st : BTState α) :
    (btCloseEnd data st).equityCurve = st.equityCurve := by
  unfold btCloseEnd
  cases hp : st.position <;> rfl

/-- `btStep` on a LONG position with a HOLD signal: the state is unchanged and
the pushed equity point is fully explicit (including its drawdown). -/
lemma btStep_hold_long_point {α : Type} [LinearOrderedField α] (tc sh : α)
    (as : Bool) (i : ℕ) (bar : MarketData α) (st : BTState α)
    (h : st.position = Position.LONG) :
    (btStep tc as sh i bar StrategySignal.HOLD st).equityCurve =
      st.equityCurve ++ [⟨bar.date,
        st.capital * (1 + (bar.close - st.entryPrice) / st.entryPrice * 100 / 100),
        sh * bar.close,
        (max st.peakEquity
            (st.capital * (1 + (bar.close - st.entryPrice) / st.entryPrice * 100 / 100)) -
          st.capital * (1 + (bar.close - st.entryPrice) / st.entryPrice * 100 / 100)) /
          max st.peakEquity
            (st.capital * (1 + (bar.close - st.entryPrice) / st.entryPrice * 100 / 100)) *
          100⟩] := by
  simp [btStep, h]

/-- The first equity point of the backtest loop, when the bar-0 signal is HOLD
and the loop starts LONG with an empty curve. -/
lemma btLoop_head_point {α : Type} [LinearOrderedField α] (tc sh : α) (as : Bool)
    (signals : List StrategySignal) (d0 : MarketData α) (rest : List (MarketData α))
    (st : BTState α) (hpos : st.position = Position.LONG)
    (hec : st.equityCurve = [])
    (h0 : signals.getD 0 StrategySignal.HOLD = StrategySignal.HOLD) :
    (btLoop tc as sh (d0 :: rest) signals st).equityCurve.head? =
      some ⟨d0.date,
        st.capital * (1 + (d0.close - st.entryPrice) / st.entryPrice * 100 / 100),
        sh * d0.close,
        (max st.peakEquity
            (st.capital * (1 + (d0.close - st.entryPrice) / st.entryPrice * 100 / 100)) -
          st.capital * (1 + (d0.close - st.entryPrice) / st.entryPrice * 100 / 100)) /
          max st.peakEquity
            (st.capital * (1 + (d0.close - st.entryPrice) / st.entryPrice * 100 / 100)) *
          100⟩ := by
  have hstep : btLoop tc as sh (d0 :: rest) signals st =
      (rest.enumFrom 1).foldl (fun st p => btStep tc as sh p.1 p.2
        (signals.getD p.1 StrategySignal.HOLD) st)
        (btStep tc as sh 0 d0 (signals.getD 0 StrategySignal.HOLD) st) := rfl
  rw [hstep]
  obtain ⟨suffix, hs, _⟩ := btLoop_equityCurve_suffix tc sh as signals
    (rest.enumFrom 1) (btStep tc as sh 0 d0 (signals.getD 0 StrategySignal.HOLD) st)
  rw [hs, h0, btStep_hold_long_point tc sh as 0 d0 st hpos, hec]
  simp

lemma c8bars_length {α : Type} [LinearOrderedField α] (sine : α → α) :
    (c8bars sine).length = 300 := by
  simp [c8bars]

lemma getStrategyById_ma {α : Type} [LinearOrderedField α] [FloorRing α] :
    getStrategyById (α := α) "ma_crossover" = some
      { id := "ma_crossover", name := "Moving Average Crossover",
        description := "Buy when fast EMA crosses above slow EMA, sell on cross below",
        category := StrategyCategory.trend,
        parameters := [⟨"fastPeriod", "Fast EMA Period", 10, 5, 30, 1⟩,
          ⟨"slowPeriod", "Slow EMA Period", 30, 15, 100, 5⟩],
        calculate := maCrossoverCalculate } := rfl

/-- `runBacktest` on the C8 scenario reduces to `runBacktestSignals` with the
MA-Crossover signals. -/
lemma c8_runBacktest_eq {α : Type} [LinearOrderedField α] [FloorRing α]
    (sine : α → α) (M : JsMath α) :
    runBacktest M (c8bars sine) ⟨"ma_crossover", [], 10000, false, 1 / 10⟩ =
      runBacktestSignals M "ma_crossover" "Moving Average Crossover" (c8bars sine)
        (maCrossoverCalculate (c8bars sine) []).signals
        ⟨"ma_crossover", [], 10000, false, 1 / 10⟩ := by
  have hlen2 : ¬((c8bars (α := α) sine).length < 2) := by
    rw [c8bars_length]
    norm_num
  unfold runBacktest
  rw [if_neg hlen2]
  rw [show getStrategyById
      (α := α) ((⟨"ma_crossover", [], 10000, false, 1 / 10⟩ :
        BacktestConfig α).strategyId) = some
      { id := "ma_crossover", name := "Moving Average Crossover",
        description := "Buy when fast EMA crosses above slow EMA, sell on cross below",
        category := StrategyCategory.trend,
        parameters := [⟨"fastPeriod", "Fast EMA Period", 10, 5, 30, 1⟩,
          ⟨"slowPeriod", "Slow EMA Period", 30, 15, 100, 5⟩],
        calculate := maCrossoverCalculate } from getStrategyById_ma]

/-- Bar 0 of the MA-Crossover signals is HOLD (index 0 is below the slow
period's warm-up guard). -/
lemma maCrossover_sig0_hold {α : Type} [LinearOrderedField α] [FloorRing α]
    (data : List (MarketData α)) (hlen : data.length = 300) :
    (maCrossoverCalculate data ([] : List (String × α))).signals.getD 0
      StrategySignal.HOLD = StrategySignal.HOLD := by
  simp only [maCrossoverCalculate, param, List.find?_nil]
  rw [hlen]
  rw [List.getD_eq_getElem _ _ (by simp)]
  rw [List.getElem_map, List.getElem_range]
  rw [if_pos (Or.inl (show ((0 : ℕ) : α) < 30 by norm_num))]

/-- The first equity point of the C8 scenario run: its drawdown is exactly the
transaction cost, 0.1 percent. -/
lemma c8_head_drawdown {α : Type} [LinearOrderedField α] [FloorRing α]
    (sine : α → α) (M : JsMath α) :
    ∃ p : EquityPoint α,
      (runBacktest M (c8bars sine)
          ⟨"ma_crossover", [], 10000, false, 1 / 10⟩).equityCurve.head? = some p ∧
        p.drawdown = 1 / 10 := by
  have hrb := c8_runBacktest_eq sine M
  have hsig0 := maCrossover_sig0_hold (c8bars sine) (c8bars_length sine)
  have hec : (runBacktestSignals M "ma_crossover" "Moving Average Crossover"
      (c8bars sine) (maCrossoverCalculate (c8bars sine) []).signals
      ⟨"ma_crossover", [], 10000, false, 1 / 10⟩).equityCurve =
      (btLoop (1 / 10) false (10000 / ((c8bars sine).getD 0 default).close)
        (c8bars sine) (maCrossoverCalculate (c8bars sine) []).signals
        (btInit 10000 (1 / 10) (c8bars sine))).equityCurve :=
    btCloseEnd_equityCurve (c8bars sine) _
  obtain ⟨d0, rest, hdata⟩ : ∃ d0 rest, c8bars (α := α) sine = d0 :: rest := by
    cases h : c8bars (α := α) sine with
    | nil =>
      exfalso
      have h300 := c8bars_length (α := α) sine
      rw [h] at h300
      simp at h300
    | cons a l => exact ⟨a, l, rfl⟩
  rw [hrb, hec, hdata]
  rw [hdata] at hsig0
  rw [btLoop_head_point (1 / 10) (10000 / ((d0 :: rest).getD 0 default).close) false
    (maCrossoverCalculate (d0 :: rest) []).signals d0 rest
    (btInit 10000 (1 / 10) (d0 :: rest)) rfl rfl hsig0]
  refine ⟨_, rfl, ?_⟩
  have hE : (btInit (10000 : α) (1 / 10) (d0 :: rest)).entryPrice = d0.close := rfl
  have hC : (btInit (10000 : α) (1 / 10) (d0 :: rest)).capital =
      10000 * (1 - 1 / 10 / 100) := rfl
  have hP : (btInit (10000 : α) (1 / 10) (d0 :: rest)).peakEquity = 10000 := rfl
  simp only [hE, hC, hP]
  rw [sub_self, zero_div]
  norm_num [max_def]

/-- C8 counterexample: in the 300-bar real-sine scenario (close =
100 + 10·sin(i/10), MA-Crossover, default parameters, initialCapital 10000,
transaction cost 0.1), the first equity point's drawdown is 0.1 — the initial
entry's transaction cost — and not 0 as the specification claims. -/
theorem c8_first_drawdown_not_zero :
    ∃ p : EquityPoint ℝ,
      (runBacktest (jsMathZero ℝ) (c8bars Real.sin)
          ⟨"ma_crossover", [], 10000, false, 1 / 10⟩).equityCurve.head? = some p ∧
        p.drawdown = 1 / 10 ∧ p.drawdown ≠ 0 := by
  obtain ⟨p, hp, hd⟩ := c8_head_drawdown Real.sin (jsMathZero ℝ)
  exact ⟨p, hp, hd, by rw [hd]; norm_num⟩

/-- C8 (amended): the 300-bar sine scenario (MA-Crossover, default parameters,
initialCapital 10000, transaction cost 0.1) produces a non-empty trade list, a
`tradingDays` of 300, an equity curve of exactly 300 points — but the first
point's drawdown is 0.1 (the initial forced entry's transaction cost), not 0.
The result holds for every interpretation of the sine function. -/
theorem c8_sine_scenario {α : Type} [LinearOrderedField α] [FloorRing α]
    (sine : α → α) (M : JsMath α) :
    (runBacktest M (c8bars sine)
        ⟨"ma_crossover", [], 10000, false, 1 / 10⟩).trades ≠ [] ∧
      (runBacktest M (c8bars sine)
        ⟨"ma_crossover", [], 10000, false, 1 / 10⟩).tradingDays = 300 ∧
      (runBacktest M (c8bars sine)
        ⟨"ma_crossover", [], 10000, false, 1 / 10⟩).equityCurve.length = 300 ∧
      ∃ p : EquityPoint α,
        (runBacktest M (c8bars sine)
            ⟨"ma_crossover", [], 10000, false, 1 / 10⟩).equityCurve.head? = some p ∧
          p.drawdown = 1 / 10 := by
  have hrb := c8_runBacktest_eq sine M
  refine ⟨?_, ?_, ?_, c8_head_drawdown sine M⟩
  · rw [hrb]
    have htr : (runBacktestSignals M "ma_crossover" "Moving Average Crossover"
        (c8bars sine) (maCrossoverCalculate (c8bars sine) []).signals
        ⟨"ma_crossover", [], 10000, false, 1 / 10⟩).trades =
        (btCloseEnd (c8bars sine)
          (btLoop (1 / 10) false (10000 / ((c8bars sine).getD 0 default).close)
            (c8bars sine) (maCrossoverCalculate (c8bars sine) []).signals
            (btInit 10000 (1 / 10) (c8bars sine)))).trades := rfl
    rw [htr]
    apply btCloseEnd_trades_ne_nil
    exact btLoop_flat_trades (1 / 10) (10000 / ((c8bars sine).getD 0 default).close)
      false (maCrossoverCalculate (c8bars sine) []).signals (c8bars sine).enum
      (btInit 10000 (1 / 10) (c8bars sine))
      (fun hF => Position.noConfusion hF)
  · rw [hrb]
    have htd : (runBacktestSignals M "ma_crossover" "Moving Average Crossover"
        (c8bars sine) (maCrossoverCalculate (c8bars sine) []).signals
        ⟨"ma_crossover", [], 10000, false, 1 / 10⟩).tradingDays =
        (c8bars sine).length := rfl
    rw [htd]
    exact c8bars_length sine
  · rw [hrb]
    have hec : (runBacktestSignals M "ma_crossover" "Moving Average Crossover"
        (c8bars sine) (maCrossoverCalculate (c8bars sine) []).signals
        ⟨"ma_crossover", [], 10000, false, 1 / 10⟩).equityCurve =
        (btLoop (1 / 10) false (10000 / ((c8bars sine).getD 0 default).close)
          (c8bars sine) (maCrossoverCalculate (c8bars sine) []).signals
          (btInit 10000 (1 / 10) (c8bars sine))).equityCurve :=
      btCloseEnd_equityCurve (c8bars sine) _
    rw [hec]
    obtain ⟨suffix, hs, hl⟩ := btLoop_equityCurve_suffix (1 / 10)
      (10000 / ((c8bars sine).getD 0 default).close) false
      (maCrossoverCalculate (c8bars sine) []).signals (c8bars sine).enum
      (btInit 10000 (1 / 10) (c8bars sine))
    have hbl : (btLoop (1 / 10) false (10000 / ((c8bars sine).getD 0 default).close)
        (c8bars sine) (maCrossoverCalculate (c8bars sine) []).signals
        (btInit 10000 (1 / 10) (c8bars sine))).equityCurve =
        (btInit (10000 : α) (1 / 10) (c8bars sine)).equityCurve ++ suffix := hs
    rw [hbl]
    have h0 : (btInit (10000 : α) (1 / 10) (c8bars sine)).equityCurve = [] := rfl
    rw [h0, List.nil_append, hl, List.enum_length]
    exact c8bars_length sine

end HamiltonTool
